import Mathlib

/-!
Verification of the ChallengeEscrow state machine
(`src/contracts/ChallengeEscrow.sol`).

The contract is shallowly embedded: Solidity mappings become association
lists read through a total lookup with the Solidity default value,
`uint256` becomes `Nat` (all quantities involved — deposits bounded by
`MAX_DEPOSIT`, basis points, timestamps — are far below `2^256`, so the
wrap-around semantics never triggers on the values considered here),
`revert` becomes `Except.error` (an erroring call leaves the contract
state untouched, exactly as the EVM rolls back a reverted call), and the
ERC-20 token collaborator is represented by the outgoing `Transfer`
events an operation emits plus a boolean describing whether the inbound
`safeTransferFrom` of `createChallenge` succeeded.

Spec naming note: the specification calls the voting state
`FAILED_PENDING_VOTE`; the source names the same enum member
`FAILED_PENDING_INSURANCE`.  The embedding keeps the source name.
-/

namespace ChallengeEscrow

/-- Addresses are modelled as naturals; `0` is the zero address. -/
abbrev Address := Nat

/-- Challenge identifiers (`bytes32` in the source). -/
abbrev Bytes32 := Nat

/-- `enum ChallengeState` from the source. -/
inductive ChallengeState where
  | ACTIVE
  | COMPLETED
  | FAILED_PENDING_INSURANCE
  | REMEDIATION_ACTIVE
  | FAILED_FINAL
deriving DecidableEq, Repr

/-- `struct Challenge` from the source. -/
structure Challenge where
  user : Address
  amount : Nat
  state : ChallengeState
  createdAt : Nat
  endTime : Nat
  votingDeadline : Nat
  remediationDeadline : Nat
  metadataUri : String
deriving DecidableEq, Repr

/-- The Solidity default value of `Challenge` (all fields zero). -/
def emptyChallenge : Challenge :=
  { user := 0, amount := 0, state := .ACTIVE, createdAt := 0, endTime := 0,
    votingDeadline := 0, remediationDeadline := 0, metadataUri := "" }

/-- `struct VotingState` from the source.  The two `mapping(address => bool)`
fields are represented by their support: `hasVotedSet` is the set of
addresses whose `hasVoted` flag is true, `voteTrueSet` the set of addresses
whose recorded `voteValue` is true (both mappings default to `false`). -/
structure VotingState where
  guarantors : List Address
  hasVotedSet : List Address
  voteTrueSet : List Address
  yesVotes : Nat
  noVotes : Nat
  requiredVotes : Nat
deriving DecidableEq, Repr

/-- Solidity default `VotingState` (empty list, empty mappings, zeros). -/
def emptyVoting : VotingState :=
  { guarantors := [], hasVotedSet := [], voteTrueSet := [],
    yesVotes := 0, noVotes := 0, requiredVotes := 0 }

/-- One outgoing ERC-20 transfer performed by the contract. -/
structure Transfer where
  recipient : Address
  amount : Nat
deriving DecidableEq, Repr

/-- The contract's declared custom errors, plus the two failure modes of
its admin functions (`Ownable`'s unauthorized revert and the
`require(_feeBps <= 1000)` string revert). -/
inductive Err where
  | InvalidAmount
  | InvalidGuarantors
  | ChallengeNotFound
  | InvalidState (expected actual : ChallengeState)
  | NotAuthorized
  | AlreadyVoted
  | NotGuarantor
  | VotingPeriodEnded
  | VotingPeriodActive
  | RemediationPeriodEnded
  | ChallengeNotEnded
  | TransferFailed
  | OwnableUnauthorizedAccount
  | FeeTooHigh
deriving DecidableEq, Repr

instance exceptDecEq {ε α : Type} [DecidableEq ε] [DecidableEq α] :
    DecidableEq (Except ε α) := fun x y =>
  match x, y with
  | .ok a, .ok b =>
      if h : a = b then .isTrue (by rw [h])
      else .isFalse (fun hh => h (by injection hh))
  | .error a, .error b =>
      if h : a = b then .isTrue (by rw [h])
      else .isFalse (fun hh => h (by injection hh))
  | .ok _, .error _ => .isFalse (fun hh => by injection hh)
  | .error _, .ok _ => .isFalse (fun hh => by injection hh)

/-- `VOTING_PERIOD = 24 hours` (in seconds). -/
def VOTING_PERIOD : Nat := 24 * 60 * 60

/-- `REMEDIATION_PERIOD = 7 days` (in seconds). -/
def REMEDIATION_PERIOD : Nat := 7 * 24 * 60 * 60

/-- `MIN_DEPOSIT = 1 * 10**6` ($1 USDC, 6 decimals). -/
def MIN_DEPOSIT : Nat := 1 * 10 ^ 6

/-- `MAX_DEPOSIT = 10000 * 10**6` ($10,000 USDC). -/
def MAX_DEPOSIT : Nat := 10000 * 10 ^ 6

/-- Total lookup in an association list, returning the Solidity default
`d` when the key is absent — the semantics of a Solidity `mapping`. -/
def mlookup {β : Type} (d : β) : List (Nat × β) → Nat → β
  | [], _ => d
  | kv :: rest, k => if k = kv.1 then kv.2 else mlookup d rest k

/-- Entire storage of the contract, together with the global
configuration variables.  `contractOwner` is `Ownable`'s owner. -/
structure EscrowState where
  challenges : List (Bytes32 × Challenge)
  votingStates : List (Bytes32 × VotingState)
  platformFeeBps : Nat
  feeRecipient : Address
  treasury : Address
  contractOwner : Address
deriving DecidableEq, Repr

/-- `challenges[challengeId]`. -/
def challengeOf (s : EscrowState) (id : Bytes32) : Challenge :=
  mlookup emptyChallenge s.challenges id

/-- `votingStates[challengeId]`. -/
def votingOf (s : EscrowState) (id : Bytes32) : VotingState :=
  mlookup emptyVoting s.votingStates id

/-- The contract constructor: `treasury := _treasury`,
`feeRecipient := _owner`, fee starts at `0`, storage empty. -/
def initState (owner0 treasury0 : Address) : EscrowState :=
  { challenges := [], votingStates := [], platformFeeBps := 0,
    feeRecipient := owner0, treasury := treasury0, contractOwner := owner0 }

/-- The guarantor-validation loop of `createChallenge`: every guarantor is
distinct from the caller and from the zero address, and the list has no
duplicates (`_guarantors[i] == _guarantors[j]` check for `j > i`). -/
def guarantorsValid (sender : Address) : List Address → Bool
  | [] => true
  | g :: rest =>
      g != sender && g != 0 &&
        rest.all (fun h => h != g) && guarantorsValid sender rest

/-- `_startRemediation`: state → REMEDIATION_ACTIVE,
`remediationDeadline = now + REMEDIATION_PERIOD`; no transfer. -/
def startRemediation (s : EscrowState) (now : Nat) (id : Bytes32) :
    EscrowState × List Transfer :=
  let c := challengeOf s id
  ({ s with challenges :=
      (id, { c with state := .REMEDIATION_ACTIVE,
                    remediationDeadline := now + REMEDIATION_PERIOD })
        :: s.challenges }, [])

/-- `_finalizeFailed`: state → FAILED_FINAL; the full `amount` is sent to
the treasury, but only when the treasury address is nonzero. -/
def finalizeFailed (s : EscrowState) (id : Bytes32) :
    EscrowState × List Transfer :=
  let c := challengeOf s id
  ({ s with challenges :=
      (id, { c with state := .FAILED_FINAL }) :: s.challenges },
   if s.treasury ≠ 0 then [⟨s.treasury, c.amount⟩] else [])

/-- `createChallenge`.  `transferOk` is the outcome of the inbound
`safeTransferFrom(msg.sender, address(this), _amount)`; when it is
`false` the call reverts (modelled as `Err.TransferFailed`). -/
def createChallenge (s : EscrowState) (sender now : Nat) (challengeId : Bytes32)
    (gs : List Address) (amount duration : Nat) (metadataUri : String)
    (transferOk : Bool) : Except Err (EscrowState × List Transfer) :=
  if amount < MIN_DEPOSIT ∨ amount > MAX_DEPOSIT then .error .InvalidAmount
  else if gs.length = 0 ∨ gs.length > 10 then .error .InvalidGuarantors
  else if (challengeOf s challengeId).user ≠ 0 then
    .error (.InvalidState .ACTIVE (challengeOf s challengeId).state)
  else if ¬ guarantorsValid sender gs then .error .InvalidGuarantors
  else if ¬ transferOk then .error .TransferFailed
  else
    .ok ({ s with
            challenges :=
              (challengeId,
                { user := sender, amount := amount, state := .ACTIVE,
                  createdAt := now, endTime := now + duration,
                  votingDeadline := 0, remediationDeadline := 0,
                  metadataUri := metadataUri }) :: s.challenges,
            votingStates :=
              (challengeId,
                { guarantors := gs, hasVotedSet := [], voteTrueSet := [],
                  yesVotes := 0, noVotes := 0,
                  requiredVotes := gs.length / 2 + 1 }) :: s.votingStates },
         [])

/-- `reportFailure`. -/
def reportFailure (s : EscrowState) (sender now : Nat) (id : Bytes32) :
    Except Err (EscrowState × List Transfer) :=
  let c := challengeOf s id
  if c.user = 0 then .error .ChallengeNotFound
  else if c.state ≠ .ACTIVE then .error (.InvalidState .ACTIVE c.state)
  else if sender ≠ c.user then .error .NotAuthorized
  else if now < c.endTime then .error .ChallengeNotEnded
  else
    .ok ({ s with challenges :=
            (id, { c with state := .FAILED_PENDING_INSURANCE,
                          votingDeadline := now + VOTING_PERIOD })
              :: s.challenges }, [])

/-- The ballot-recording block of `castVote` (`hasVoted[msg.sender] = true`,
`voteValue[msg.sender] = approveRedemption`, tally increment). -/
def votedState (vs : VotingState) (sender : Address) (approve : Bool) :
    VotingState :=
  { vs with
      hasVotedSet := sender :: vs.hasVotedSet,
      voteTrueSet := if approve then sender :: vs.voteTrueSet else vs.voteTrueSet,
      yesVotes := if approve then vs.yesVotes + 1 else vs.yesVotes,
      noVotes := if approve then vs.noVotes else vs.noVotes + 1 }

/-- `castVote`.  After recording the ballot the source checks the two
early-exit thresholds against the stored `requiredVotes` and the length
of the original guarantor list. -/
def castVote (s : EscrowState) (sender now : Nat) (id : Bytes32)
    (approveRedemption : Bool) : Except Err (EscrowState × List Transfer) :=
  let c := challengeOf s id
  let vs := votingOf s id
  if c.user = 0 then .error .ChallengeNotFound
  else if c.state ≠ .FAILED_PENDING_INSURANCE then
    .error (.InvalidState .FAILED_PENDING_INSURANCE c.state)
  else if now > c.votingDeadline then .error .VotingPeriodEnded
  else if sender ∈ vs.hasVotedSet then .error .AlreadyVoted
  else if sender ∉ vs.guarantors then .error .NotGuarantor
  else
    let vs' : VotingState := votedState vs sender approveRedemption
    let s1 : EscrowState := { s with votingStates := (id, vs') :: s.votingStates }
    if vs'.yesVotes ≥ vs'.requiredVotes then .ok (startRemediation s1 now id)
    else if vs'.noVotes > vs.guarantors.length - vs.requiredVotes then
      .ok (finalizeFailed s1 id)
    else .ok (s1, [])

/-- `finalizeVoting`. -/
def finalizeVoting (s : EscrowState) (sender now : Nat) (id : Bytes32) :
    Except Err (EscrowState × List Transfer) :=
  let c := challengeOf s id
  let vs := votingOf s id
  if c.user = 0 then .error .ChallengeNotFound
  else if c.state ≠ .FAILED_PENDING_INSURANCE then
    .error (.InvalidState .FAILED_PENDING_INSURANCE c.state)
  else if now ≤ c.votingDeadline then .error .VotingPeriodActive
  else if vs.yesVotes ≥ vs.requiredVotes then .ok (startRemediation s now id)
  else .ok (finalizeFailed s id)

/-- `completeChallenge`. -/
def completeChallenge (s : EscrowState) (sender now : Nat) (id : Bytes32) :
    Except Err (EscrowState × List Transfer) :=
  let c := challengeOf s id
  let vs := votingOf s id
  if c.user = 0 then .error .ChallengeNotFound
  else if c.state ≠ .ACTIVE ∧ c.state ≠ .REMEDIATION_ACTIVE then
    .error (.InvalidState .ACTIVE c.state)
  else if sender ∉ vs.guarantors ∧ ¬ (sender = c.user ∧ now ≥ c.endTime) then
    .error .NotAuthorized
  else
    let fee := c.amount * s.platformFeeBps / 10000
    let userAmount := c.amount - fee
    .ok ({ s with challenges :=
            (id, { c with state := .COMPLETED }) :: s.challenges },
         (if fee > 0 ∧ s.feeRecipient ≠ 0 then [⟨s.feeRecipient, fee⟩] else [])
           ++ [⟨c.user, userAmount⟩])

/-- `finalizeRemediation`.  Note: the source reverts with its (misnamed)
`RemediationPeriodEnded` error when the remediation period is still
active (`block.timestamp <= c.remediationDeadline`). -/
def finalizeRemediation (s : EscrowState) (sender now : Nat) (id : Bytes32) :
    Except Err (EscrowState × List Transfer) :=
  let c := challengeOf s id
  if c.user = 0 then .error .ChallengeNotFound
  else if c.state ≠ .REMEDIATION_ACTIVE then
    .error (.InvalidState .REMEDIATION_ACTIVE c.state)
  else if now ≤ c.remediationDeadline then .error .RemediationPeriodEnded
  else .ok (finalizeFailed s id)

/-- View `hasVoted`. -/
def hasVoted (s : EscrowState) (id : Bytes32) (voter : Address) : Bool :=
  decide (voter ∈ (votingOf s id).hasVotedSet)

/-- View `getVote`. -/
def getVote (s : EscrowState) (id : Bytes32) (voter : Address) : Bool :=
  decide (voter ∈ (votingOf s id).voteTrueSet)

/-- Admin `setPlatformFee` (onlyOwner, capped at 1000 bps). -/
def setPlatformFee (s : EscrowState) (sender : Address) (feeBps : Nat) :
    Except Err (EscrowState × List Transfer) :=
  if sender ≠ s.contractOwner then .error .OwnableUnauthorizedAccount
  else if feeBps > 1000 then .error .FeeTooHigh
  else .ok ({ s with platformFeeBps := feeBps }, [])

/-- Admin `setFeeRecipient` (onlyOwner). -/
def setFeeRecipient (s : EscrowState) (sender : Address) (r : Address) :
    Except Err (EscrowState × List Transfer) :=
  if sender ≠ s.contractOwner then .error .OwnableUnauthorizedAccount
  else .ok ({ s with feeRecipient := r }, [])

/-- Admin `setTreasury` (onlyOwner). -/
def setTreasury (s : EscrowState) (sender : Address) (t : Address) :
    Except Err (EscrowState × List Transfer) :=
  if sender ≠ s.contractOwner then .error .OwnableUnauthorizedAccount
  else .ok ({ s with treasury := t }, [])

/-- One external call to the contract, with its environment (caller and
`block.timestamp`). -/
inductive Op where
  | createChallenge (sender now : Nat) (id : Bytes32) (gs : List Address)
      (amount duration : Nat) (uri : String) (transferOk : Bool)
  | reportFailure (sender now : Nat) (id : Bytes32)
  | castVote (sender now : Nat) (id : Bytes32) (approve : Bool)
  | finalizeVoting (sender now : Nat) (id : Bytes32)
  | completeChallenge (sender now : Nat) (id : Bytes32)
  | finalizeRemediation (sender now : Nat) (id : Bytes32)
  | setPlatformFee (sender : Address) (bps : Nat)
  | setFeeRecipient (sender : Address) (r : Address)
  | setTreasury (sender : Address) (t : Address)
deriving DecidableEq, Repr

/-- Dispatch an `Op` to the corresponding contract function. -/
def step (s : EscrowState) : Op → Except Err (EscrowState × List Transfer)
  | .createChallenge sender now id gs amount duration uri transferOk =>
      createChallenge s sender now id gs amount duration uri transferOk
  | .reportFailure sender now id => reportFailure s sender now id
  | .castVote sender now id approve => castVote s sender now id approve
  | .finalizeVoting sender now id => finalizeVoting s sender now id
  | .completeChallenge sender now id => completeChallenge s sender now id
  | .finalizeRemediation sender now id => finalizeRemediation s sender now id
  | .setPlatformFee sender bps => setPlatformFee s sender bps
  | .setFeeRecipient sender r => setFeeRecipient s sender r
  | .setTreasury sender t => setTreasury s sender t

/-- The challenge id an operation addresses (`none` for the three admin
functions, which take no id). -/
def Op.targetId : Op → Option Bytes32
  | .createChallenge _ _ id _ _ _ _ _ => some id
  | .reportFailure _ _ id => some id
  | .castVote _ _ id _ => some id
  | .finalizeVoting _ _ id => some id
  | .completeChallenge _ _ id => some id
  | .finalizeRemediation _ _ id => some id
  | .setPlatformFee _ _ => none
  | .setFeeRecipient _ _ => none
  | .setTreasury _ _ => none

/-- The id of an operation that addresses an existing challenge (the five
lifecycle operations; `createChallenge` creates rather than operates and
the admin functions take no id). -/
def Op.lifecycleId : Op → Option Bytes32
  | .reportFailure _ _ id => some id
  | .castVote _ _ id _ => some id
  | .finalizeVoting _ _ id => some id
  | .completeChallenge _ _ id => some id
  | .finalizeRemediation _ _ id => some id
  | _ => none

/-- Whether an operation is a `completeChallenge` call. -/
def Op.isComplete : Op → Bool
  | .completeChallenge _ _ _ => true
  | _ => false

/-- EVM call semantics: a successful call commits the new state and its
transfers (tagged with the addressed challenge id); a reverted call
leaves the state untouched and moves no funds. -/
def applyOp (s : EscrowState) (op : Op) :
    EscrowState × List (Bytes32 × Transfer) :=
  match step s op, op.targetId with
  | .ok (s', ts), some id => (s', ts.map (fun t => (id, t)))
  | .ok (s', _), none => (s', [])
  | .error _, _ => (s, [])

/-- Run a sequence of calls, accumulating the contract state and the log
of outgoing transfers tagged by challenge id. -/
def runAux (s : EscrowState) (log : List (Bytes32 × Transfer)) :
    List Op → EscrowState × List (Bytes32 × Transfer)
  | [] => (s, log)
  | op :: ops => runAux (applyOp s op).1 (log ++ (applyOp s op).2) ops

/-- A contract state reachable from some freshly constructed contract by
some sequence of calls. -/
def Reachable (s : EscrowState) : Prop :=
  ∃ owner0 treasury0 ops, (runAux (initState owner0 treasury0) [] ops).1 = s

/-- The transfers the log records for challenge `id`, in order. -/
def disb (log : List (Bytes32 × Transfer)) (id : Bytes32) : List Transfer :=
  log.filterMap (fun p => if p.1 = id then some p.2 else none)

/-- The fee leg of a successful completion: one transfer when the fee is
nonzero and a fee recipient is configured, nothing otherwise. -/
def feeTransfers (fr : Address) (fee : Nat) : List Transfer :=
  if 0 < fee ∧ fr ≠ 0 then [⟨fr, fee⟩] else []

theorem mlookup_cons {β : Type} (d : β) (k : Nat) (v : β)
    (rest : List (Nat × β)) (k' : Nat) :
    mlookup d ((k, v) :: rest) k' = if k' = k then v else mlookup d rest k' :=
  rfl

theorem disb_append (l1 l2 : List (Bytes32 × Transfer)) (id : Bytes32) :
    disb (l1 ++ l2) id = disb l1 id ++ disb l2 id := by
  simp [disb, List.filterMap_append]

theorem disb_nil (id : Bytes32) : disb [] id = [] := rfl

theorem disb_tag_self (ts : List Transfer) (id : Bytes32) :
    disb (ts.map (fun t => (id, t))) id = ts := by
  induction ts with
  | nil => rfl
  | cons t ts ih => simpa [disb] using ih

theorem disb_tag_ne {id id' : Bytes32} (h : id' ≠ id) (ts : List Transfer) :
    disb (ts.map (fun t => (id, t))) id' = [] := by
  induction ts with
  | nil => rfl
  | cons t ts ih =>
      simp only [List.map_cons, disb, List.filterMap_cons] at ih ⊢
      rw [if_neg (fun hh => h hh.symm)]
      exact ih

theorem applyOp_error {s : EscrowState} {op : Op} {e : Err}
    (h : step s op = .error e) : applyOp s op = (s, []) := by
  simp [applyOp, h]

theorem createChallenge_ok_shape {s : EscrowState} {sender now : Nat}
    {id : Bytes32} {gs : List Address} {amount duration : Nat} {uri : String}
    {tok : Bool} {s' : EscrowState} {ts : List Transfer}
    (h : createChallenge s sender now id gs amount duration uri tok = .ok (s', ts)) :
    MIN_DEPOSIT ≤ amount ∧ amount ≤ MAX_DEPOSIT ∧
    1 ≤ gs.length ∧ gs.length ≤ 10 ∧
    (challengeOf s id).user = 0 ∧ guarantorsValid sender gs = true ∧ tok = true ∧
    s' = { s with
            challenges :=
              (id, { user := sender, amount := amount, state := .ACTIVE,
                     createdAt := now, endTime := now + duration,
                     votingDeadline := 0, remediationDeadline := 0,
                     metadataUri := uri }) :: s.challenges,
            votingStates :=
              (id, { guarantors := gs, hasVotedSet := [], voteTrueSet := [],
                     yesVotes := 0, noVotes := 0,
                     requiredVotes := gs.length / 2 + 1 }) :: s.votingStates } ∧
    ts = [] := by
  simp only [createChallenge] at h
  split at h
  · simp at h
  split at h
  · simp at h
  split at h
  · simp at h
  split at h
  · simp at h
  split at h
  · simp at h
  rename_i h1 h2 h3 h4 h5
  push_neg at h1 h2 h3 h5
  simp only [Except.ok.injEq, Prod.mk.injEq] at h
  refine ⟨h1.1, h1.2, ?_, ?_, h3, ?_, ?_, h.1.symm, h.2.symm⟩
  · omega
  · omega
  · simpa using h4
  · simpa using h5

theorem reportFailure_ok_shape {s : EscrowState} {sender now : Nat}
    {id : Bytes32} {s' : EscrowState} {ts : List Transfer}
    (h : reportFailure s sender now id = .ok (s', ts)) :
    (challengeOf s id).user ≠ 0 ∧ (challengeOf s id).state = .ACTIVE ∧
    sender = (challengeOf s id).user ∧ (challengeOf s id).endTime ≤ now ∧
    s' = { s with
            challenges :=
              (id, { (challengeOf s id) with
                       state := .FAILED_PENDING_INSURANCE,
                       votingDeadline := now + VOTING_PERIOD })
                :: s.challenges } ∧
    ts = [] := by
  simp only [reportFailure] at h
  split at h
  · simp at h
  split at h
  · simp at h
  split at h
  · simp at h
  split at h
  · simp at h
  rename_i h1 h2 h3 h4
  push_neg at h3 h4
  simp only [Except.ok.injEq, Prod.mk.injEq] at h
  exact ⟨h1, not_not.mp h2, h3, h4, h.1.symm, h.2.symm⟩

theorem castVote_ok_shape {s : EscrowState} {sender now : Nat} {id : Bytes32}
    {approve : Bool} {s' : EscrowState} {ts : List Transfer}
    (h : castVote s sender now id approve = .ok (s', ts)) :
    (challengeOf s id).user ≠ 0 ∧
    (challengeOf s id).state = .FAILED_PENDING_INSURANCE ∧
    now ≤ (challengeOf s id).votingDeadline ∧
    sender ∉ (votingOf s id).hasVotedSet ∧
    sender ∈ (votingOf s id).guarantors ∧
    (((votedState (votingOf s id) sender approve).yesVotes ≥
          (votingOf s id).requiredVotes ∧
        (s', ts) = startRemediation
            { s with votingStates :=
                (id, votedState (votingOf s id) sender approve)
                  :: s.votingStates } now id) ∨
      ((votedState (votingOf s id) sender approve).yesVotes <
          (votingOf s id).requiredVotes ∧
        (votedState (votingOf s id) sender approve).noVotes >
          (votingOf s id).guarantors.length - (votingOf s id).requiredVotes ∧
        (s', ts) = finalizeFailed
            { s with votingStates :=
                (id, votedState (votingOf s id) sender approve)
                  :: s.votingStates } id) ∨
      ((votedState (votingOf s id) sender approve).yesVotes <
          (votingOf s id).requiredVotes ∧
        (votedState (votingOf s id) sender approve).noVotes ≤
          (votingOf s id).guarantors.length - (votingOf s id).requiredVotes ∧
        s' = { s with votingStates :=
                 (id, votedState (votingOf s id) sender approve)
                   :: s.votingStates } ∧
        ts = [])) := by
  simp only [castVote] at h
  split at h
  · simp at h
  split at h
  · simp at h
  split at h
  · simp at h
  split at h
  · simp at h
  split at h
  · simp at h
  rename_i h1 h2 h3 h4 h5
  push_neg at h3
  split at h
  · rename_i h6
    simp only [Except.ok.injEq] at h
    exact ⟨h1, not_not.mp h2, h3, h4, not_not.mp h5, Or.inl ⟨h6, h.symm⟩⟩
  split at h
  · rename_i h6 h7
    simp only [Except.ok.injEq] at h
    push_neg at h6
    exact ⟨h1, not_not.mp h2, h3, h4, not_not.mp h5,
      Or.inr (Or.inl ⟨h6, h7, h.symm⟩)⟩
  · rename_i h6 h7
    simp only [Except.ok.injEq, Prod.mk.injEq] at h
    push_neg at h6 h7
    exact ⟨h1, not_not.mp h2, h3, h4, not_not.mp h5,
      Or.inr (Or.inr ⟨h6, h7, h.1.symm, h.2.symm⟩)⟩

theorem finalizeVoting_ok_shape {s : EscrowState} {sender now : Nat}
    {id : Bytes32} {s' : EscrowState} {ts : List Transfer}
    (h : finalizeVoting s sender now id = .ok (s', ts)) :
    (challengeOf s id).user ≠ 0 ∧
    (challengeOf s id).state = .FAILED_PENDING_INSURANCE ∧
    (challengeOf s id).votingDeadline < now ∧
    (((votingOf s id).yesVotes ≥ (votingOf s id).requiredVotes ∧
        (s', ts) = startRemediation s now id) ∨
      ((votingOf s id).yesVotes < (votingOf s id).requiredVotes ∧
        (s', ts) = finalizeFailed s id)) := by
  simp only [finalizeVoting] at h
  split at h
  · simp at h
  split at h
  · simp at h
  split at h
  · simp at h
  rename_i h1 h2 h3
  push_neg at h3
  split at h
  · rename_i h4
    simp only [Except.ok.injEq] at h
    exact ⟨h1, not_not.mp h2, h3, Or.inl ⟨h4, h.symm⟩⟩
  · rename_i h4
    simp only [Except.ok.injEq] at h
    push_neg at h4
    exact ⟨h1, not_not.mp h2, h3, Or.inr ⟨h4, h.symm⟩⟩

theorem completeChallenge_ok_shape {s : EscrowState} {sender now : Nat}
    {id : Bytes32} {s' : EscrowState} {ts : List Transfer}
    (h : completeChallenge s sender now id = .ok (s', ts)) :
    (challengeOf s id).user ≠ 0 ∧
    ((challengeOf s id).state = .ACTIVE ∨
      (challengeOf s id).state = .REMEDIATION_ACTIVE) ∧
    (sender ∈ (votingOf s id).guarantors ∨
      (sender = (challengeOf s id).user ∧ (challengeOf s id).endTime ≤ now)) ∧
    s' = { s with challenges :=
            (id, { (challengeOf s id) with state := .COMPLETED })
              :: s.challenges } ∧
    ts = feeTransfers s.feeRecipient
            ((challengeOf s id).amount * s.platformFeeBps / 10000) ++
          [⟨(challengeOf s id).user,
            (challengeOf s id).amount -
              (challengeOf s id).amount * s.platformFeeBps / 10000⟩] := by
  simp only [completeChallenge] at h
  split at h
  · simp at h
  split at h
  · simp at h
  split at h
  · simp at h
  rename_i h1 h2 h3
  rw [Decidable.not_and_iff_or_not] at h2 h3
  simp only [not_not] at h2 h3
  simp only [Except.ok.injEq, Prod.mk.injEq] at h
  refine ⟨h1, h2, ?_, h.1.symm, ?_⟩
  · rcases h3 with h3 | h3
    · exact Or.inl h3
    · exact Or.inr h3
  · rw [← h.2]
    rfl

theorem finalizeRemediation_ok_shape {s : EscrowState} {sender now : Nat}
    {id : Bytes32} {s' : EscrowState} {ts : List Transfer}
    (h : finalizeRemediation s sender now id = .ok (s', ts)) :
    (challengeOf s id).user ≠ 0 ∧
    (challengeOf s id).state = .REMEDIATION_ACTIVE ∧
    (challengeOf s id).remediationDeadline < now ∧
    (s', ts) = finalizeFailed s id := by
  simp only [finalizeRemediation] at h
  split at h
  · simp at h
  split at h
  · simp at h
  split at h
  · simp at h
  rename_i h1 h2 h3
  push_neg at h3
  simp only [Except.ok.injEq] at h
  exact ⟨h1, not_not.mp h2, h3, h.symm⟩

theorem setPlatformFee_ok_shape {s : EscrowState} {sender : Address}
    {bps : Nat} {s' : EscrowState} {ts : List Transfer}
    (h : setPlatformFee s sender bps = .ok (s', ts)) :
    sender = s.contractOwner ∧ bps ≤ 1000 ∧
    s' = { s with platformFeeBps := bps } ∧ ts = [] := by
  simp only [setPlatformFee] at h
  split at h
  · simp at h
  split at h
  · simp at h
  rename_i h1 h2
  push_neg at h2
  simp only [Except.ok.injEq, Prod.mk.injEq] at h
  exact ⟨not_not.mp (by simpa using h1), h2, h.1.symm, h.2.symm⟩

theorem setFeeRecipient_ok_shape {s : EscrowState} {sender r : Address}
    {s' : EscrowState} {ts : List Transfer}
    (h : setFeeRecipient s sender r = .ok (s', ts)) :
    sender = s.contractOwner ∧ s' = { s with feeRecipient := r } ∧ ts = [] := by
  simp only [setFeeRecipient] at h
  split at h
  · simp at h
  rename_i h1
  simp only [Except.ok.injEq, Prod.mk.injEq] at h
  exact ⟨not_not.mp (by simpa using h1), h.1.symm, h.2.symm⟩

theorem setTreasury_ok_shape {s : EscrowState} {sender t : Address}
    {s' : EscrowState} {ts : List Transfer}
    (h : setTreasury s sender t = .ok (s', ts)) :
    sender = s.contractOwner ∧ s' = { s with treasury := t } ∧ ts = [] := by
  simp only [setTreasury] at h
  split at h
  · simp at h
  rename_i h1
  simp only [Except.ok.injEq, Prod.mk.injEq] at h
  exact ⟨not_not.mp (by simpa using h1), h.1.symm, h.2.symm⟩

theorem votingOf_startRemediation (s : EscrowState) (now : Nat) (id id' : Bytes32) :
    votingOf (startRemediation s now id).1 id' = votingOf s id' := rfl

theorem votingOf_finalizeFailed (s : EscrowState) (id id' : Bytes32) :
    votingOf (finalizeFailed s id).1 id' = votingOf s id' := rfl

theorem challengeOf_startRemediation (s : EscrowState) (now : Nat) (id id' : Bytes32) :
    challengeOf (startRemediation s now id).1 id' =
      if id' = id then
        { (challengeOf s id) with
            state := .REMEDIATION_ACTIVE,
            remediationDeadline := now + REMEDIATION_PERIOD }
      else challengeOf s id' := rfl

theorem challengeOf_finalizeFailed (s : EscrowState) (id id' : Bytes32) :
    challengeOf (finalizeFailed s id).1 id' =
      if id' = id then { (challengeOf s id) with state := .FAILED_FINAL }
      else challengeOf s id' := rfl

theorem startRemediation_snd (s : EscrowState) (now : Nat) (id : Bytes32) :
    (startRemediation s now id).2 = [] := rfl

theorem finalizeFailed_snd (s : EscrowState) (id : Bytes32) :
    (finalizeFailed s id).2 =
      if s.treasury ≠ 0 then [⟨s.treasury, (challengeOf s id).amount⟩] else [] := rfl

theorem treasury_startRemediation (s : EscrowState) (now : Nat) (id : Bytes32) :
    (startRemediation s now id).1.treasury = s.treasury := rfl

theorem treasury_finalizeFailed (s : EscrowState) (id : Bytes32) :
    (finalizeFailed s id).1.treasury = s.treasury := rfl

theorem votedState_requiredVotes (vs : VotingState) (x : Address) (a : Bool) :
    (votedState vs x a).requiredVotes = vs.requiredVotes := rfl

theorem votedState_guarantors (vs : VotingState) (x : Address) (a : Bool) :
    (votedState vs x a).guarantors = vs.guarantors := rfl

/-- C4: for every accepted guarantor list (whose size is forced into
`1..10` by validation), `createChallenge` stores
`requiredVotes = ⌊n / 2⌋ + 1`; no later operation ever rewrites the
`requiredVotes` of an existing challenge; and the concrete instances
`n = 3 ↦ 2`, `n = 1 ↦ 1`, `n = 10 ↦ 6` hold on actual runs. -/
theorem C4_requiredVotes_majority :
    (∀ s sender now id gs amount duration uri tok s' ts,
        createChallenge s sender now id gs amount duration uri tok =
            .ok (s', ts) →
        (votingOf s' id).requiredVotes = gs.length / 2 + 1 ∧
          1 ≤ gs.length ∧ gs.length ≤ 10) ∧
    (∀ s op id', (challengeOf s id').user ≠ 0 →
        (votingOf (applyOp s op).1 id').requiredVotes =
          (votingOf s id').requiredVotes) ∧
    (votingOf (applyOp (initState 1 9)
        (.createChallenge 2 0 5 [3, 4, 6] 1000000 100 "" true)).1
        5).requiredVotes = 2 ∧
    (votingOf (applyOp (initState 1 9)
        (.createChallenge 2 0 5 [3] 1000000 100 "" true)).1
        5).requiredVotes = 1 ∧
    (votingOf (applyOp (initState 1 9)
        (.createChallenge 2 0 5 [3, 4, 6, 7, 8, 11, 12, 13, 14, 15]
          1000000 100 "" true)).1 5).requiredVotes = 6 := by
  refine ⟨?_, ?_, by decide, by decide, by decide⟩
  · intro s sender now id gs amount duration uri tok s' ts h
    obtain ⟨-, -, hn1, hn10, -, -, -, rfl, -⟩ := createChallenge_ok_shape h
    exact ⟨by simp [votingOf, mlookup], hn1, hn10⟩
  · intro s op id' hu
    cases op with
    | createChallenge sender now id gs amount duration uri tok =>
        cases h' : step s (.createChallenge sender now id gs amount duration uri tok) with
        | error e => rw [applyOp_error h']
        | ok p =>
            obtain ⟨s', ts⟩ := p
            obtain ⟨-, -, -, -, hu0, -, -, rfl, -⟩ :=
              createChallenge_ok_shape (by simpa [step] using h')
            have hne : id' ≠ id := fun hh => hu (by rw [hh, hu0])
            simp [applyOp, h', Op.targetId, votingOf, mlookup, hne]
    | reportFailure sender now id =>
        cases h' : step s (.reportFailure sender now id) with
        | error e => rw [applyOp_error h']
        | ok p =>
            obtain ⟨s', ts⟩ := p
            obtain ⟨-, -, -, -, rfl, -⟩ :=
              reportFailure_ok_shape (by simpa [step] using h')
            simp [applyOp, h', Op.targetId, votingOf]
    | castVote sender now id approve =>
        cases h' : step s (.castVote sender now id approve) with
        | error e => rw [applyOp_error h']
        | ok p =>
            obtain ⟨s', ts⟩ := p
            obtain ⟨-, -, -, -, -, hbr⟩ :=
              castVote_ok_shape (by simpa [step] using h')
            have hgoal : (votingOf s' id').requiredVotes =
                (votingOf s id').requiredVotes := by
              rcases hbr with ⟨-, hps⟩ | ⟨-, -, hps⟩ | ⟨-, -, hps, -⟩
              · rw [show s' = (startRemediation
                    { s with votingStates :=
                        (id, votedState (votingOf s id) sender approve)
                          :: s.votingStates } now id).1 from congrArg Prod.fst hps]
                rw [votingOf_startRemediation]
                by_cases hii : id' = id
                · subst hii; simp [votingOf, mlookup, votedState_requiredVotes]
                · simp [votingOf, mlookup, hii]
              · rw [show s' = (finalizeFailed
                    { s with votingStates :=
                        (id, votedState (votingOf s id) sender approve)
                          :: s.votingStates } id).1 from congrArg Prod.fst hps]
                rw [votingOf_finalizeFailed]
                by_cases hii : id' = id
                · subst hii; simp [votingOf, mlookup, votedState_requiredVotes]
                · simp [votingOf, mlookup, hii]
              · subst hps
                by_cases hii : id' = id
                · subst hii; simp [votingOf, mlookup, votedState_requiredVotes]
                · simp [votingOf, mlookup, hii]
            simpa [applyOp, h', Op.targetId] using hgoal
    | finalizeVoting sender now id =>
        cases h' : step s (.finalizeVoting sender now id) with
        | error e => rw [applyOp_error h']
        | ok p =>
            obtain ⟨s', ts⟩ := p
            obtain ⟨-, -, -, hbr⟩ :=
              finalizeVoting_ok_shape (by simpa [step] using h')
            have hgoal : (votingOf s' id').requiredVotes =
                (votingOf s id').requiredVotes := by
              rcases hbr with ⟨-, hps⟩ | ⟨-, hps⟩
              · rw [show s' = (startRemediation s now id).1 from
                  congrArg Prod.fst hps, votingOf_startRemediation]
              · rw [show s' = (finalizeFailed s id).1 from
                  congrArg Prod.fst hps, votingOf_finalizeFailed]
            simpa [applyOp, h', Op.targetId] using hgoal
    | completeChallenge sender now id =>
        cases h' : step s (.completeChallenge sender now id) with
        | error e => rw [applyOp_error h']
        | ok p =>
            obtain ⟨s', ts⟩ := p
            obtain ⟨-, -, -, rfl, -⟩ :=
              completeChallenge_ok_shape (by simpa [step] using h')
            simp [applyOp, h', Op.targetId, votingOf]
    | finalizeRemediation sender now id =>
        cases h' : step s (.finalizeRemediation sender now id) with
        | error e => rw [applyOp_error h']
        | ok p =>
            obtain ⟨s', ts⟩ := p
            obtain ⟨-, -, -, hps⟩ :=
              finalizeRemediation_ok_shape (by simpa [step] using h')
            have : s' = (finalizeFailed s id).1 := congrArg Prod.fst hps
            subst this
            simpa [applyOp, h', Op.targetId] using
              congrArg VotingState.requiredVotes (votingOf_finalizeFailed s id id')
    | setPlatformFee sender bps =>
        cases h' : step s (.setPlatformFee sender bps) with
        | error e => rw [applyOp_error h']
        | ok p =>
            obtain ⟨s', ts⟩ := p
            obtain ⟨-, -, rfl, -⟩ :=
              setPlatformFee_ok_shape (by simpa [step] using h')
            simp [applyOp, h', Op.targetId, votingOf]
    | setFeeRecipient sender r =>
        cases h' : step s (.setFeeRecipient sender r) with
        | error e => rw [applyOp_error h']
        | ok p =>
            obtain ⟨s', ts⟩ := p
            obtain ⟨-, rfl, -⟩ :=
              setFeeRecipient_ok_shape (by simpa [step] using h')
            simp [applyOp, h', Op.targetId, votingOf]
    | setTreasury sender t =>
        cases h' : step s (.setTreasury sender t) with
        | error e => rw [applyOp_error h']
        | ok p =>
            obtain ⟨s', ts⟩ := p
            obtain ⟨-, rfl, -⟩ :=
              setTreasury_ok_shape (by simpa [step] using h')
            simp [applyOp, h', Op.targetId, votingOf]

/-- Fixture: a challenge with three guarantors. -/
def exCreate3 : Op := .createChallenge 2 0 5 [3, 4, 6] 1000000 100 "" true

/-- Fixture: the contract right after `exCreate3`. -/
def exState3 : EscrowState := (applyOp (initState 1 9) exCreate3).1

/-- Fixture: `exCreate3` then owner-reported failure at `endTime`. -/
def exStateFPI : EscrowState :=
  (runAux (initState 1 9) [] [exCreate3, .reportFailure 2 100 5]).1

/-- Fixture: remediation reached by two yes votes after `exStateFPI`. -/
def exStateRem : EscrowState :=
  (runAux (initState 1 9) []
    [exCreate3, .reportFailure 2 100 5,
     .castVote 3 101 5 true, .castVote 4 102 5 true]).1

/-- Witness for C4 at concrete inputs. -/
theorem C4_requiredVotes_majority_witness :
    ((votingOf exState3 5).requiredVotes = [3, 4, 6].length / 2 + 1 ∧
      1 ≤ [3, 4, 6].length ∧ [3, 4, 6].length ≤ 10) ∧
    (votingOf (applyOp exState3 (.setTreasury 1 7)).1 5).requiredVotes =
      (votingOf exState3 5).requiredVotes :=
  ⟨C4_requiredVotes_majority.1 (initState 1 9) 2 0 5 [3, 4, 6] 1000000 100 ""
      true exState3 [] rfl,
   C4_requiredVotes_majority.2.1 exState3 (.setTreasury 1 7) 5 (by decide)⟩

/-- C7: for an ACTIVE challenge whose owner calls `reportFailure`, the call
fails with the temporal error `ChallengeNotEnded` exactly when
`now < endTime`; at `now ≥ endTime` it succeeds, setting
FAILED_PENDING_VOTE (source name `FAILED_PENDING_INSURANCE`) and
`votingDeadline = now + 24h`. -/
theorem C7_reportFailure_boundary (s : EscrowState) (sender now : Nat)
    (id : Bytes32)
    (hu : (challengeOf s id).user ≠ 0)
    (hst : (challengeOf s id).state = .ACTIVE)
    (hsnd : sender = (challengeOf s id).user) :
    (now < (challengeOf s id).endTime →
      reportFailure s sender now id = .error .ChallengeNotEnded) ∧
    ((challengeOf s id).endTime ≤ now →
      reportFailure s sender now id =
        .ok ({ s with challenges :=
                (id, { (challengeOf s id) with
                         state := .FAILED_PENDING_INSURANCE,
                         votingDeadline := now + VOTING_PERIOD })
                  :: s.challenges }, [])) := by
  constructor
  · intro hlt
    simp [reportFailure, hu, hst, hsnd, hlt]
  · intro hge
    simp [reportFailure, hu, hst, hsnd, Nat.not_lt.mpr hge]

/-- Witness for C7: the boundary instants `now = endTime - 1 = 99` (fails)
and `now = endTime = 100` (succeeds) on a concrete ACTIVE challenge. -/
theorem C7_reportFailure_boundary_witness :
    reportFailure exState3 2 99 5 = .error .ChallengeNotEnded ∧
    reportFailure exState3 2 100 5 =
      .ok ({ exState3 with challenges :=
              (5, { (challengeOf exState3 5) with
                      state := .FAILED_PENDING_INSURANCE,
                      votingDeadline := 100 + VOTING_PERIOD })
                :: exState3.challenges }, []) :=
  ⟨(C7_reportFailure_boundary exState3 2 99 5 (by decide) (by decide)
      (by decide)).1 (by decide),
   (C7_reportFailure_boundary exState3 2 100 5 (by decide) (by decide)
      (by decide)).2 (by decide)⟩

/-- C2: every accepted vote is tallied, and immediately afterwards the
source checks `yesCount ≥ requiredVotes` (→ REMEDIATION_ACTIVE), then
`noCount > |guarantors| - requiredVotes` (→ FAILED_FINAL), else leaves the
challenge in FAILED_PENDING_VOTE; both thresholds use the stored
`requiredVotes` and the length of the original guarantor list, which the
vote leaves unchanged — not the number of votes cast. -/
theorem C2_castVote_thresholds (s : EscrowState) (sender now : Nat)
    (id : Bytes32) (approve : Bool) (s' : EscrowState) (ts : List Transfer)
    (h : castVote s sender now id approve = .ok (s', ts)) :
    (challengeOf s id).state = .FAILED_PENDING_INSURANCE ∧
    (votingOf s' id).guarantors = (votingOf s id).guarantors ∧
    (votingOf s' id).requiredVotes = (votingOf s id).requiredVotes ∧
    (votingOf s' id).yesVotes =
      (if approve then (votingOf s id).yesVotes + 1
       else (votingOf s id).yesVotes) ∧
    (votingOf s' id).noVotes =
      (if approve then (votingOf s id).noVotes
       else (votingOf s id).noVotes + 1) ∧
    ((votingOf s' id).yesVotes ≥ (votingOf s id).requiredVotes →
      (challengeOf s' id).state = .REMEDIATION_ACTIVE) ∧
    ((votingOf s' id).yesVotes < (votingOf s id).requiredVotes →
      (votingOf s' id).noVotes >
          (votingOf s id).guarantors.length - (votingOf s id).requiredVotes →
      (challengeOf s' id).state = .FAILED_FINAL) ∧
    ((votingOf s' id).yesVotes < (votingOf s id).requiredVotes →
      (votingOf s' id).noVotes ≤
          (votingOf s id).guarantors.length - (votingOf s id).requiredVotes →
      challengeOf s' id = challengeOf s id) := by
  obtain ⟨-, hfpi, -, -, -, hbr⟩ := castVote_ok_shape h
  rcases hbr with ⟨hyes, hps⟩ | ⟨hyes, hno, hps⟩ | ⟨hyes, hno, hps, -⟩
  · have hs' : s' = (startRemediation
        { s with votingStates :=
            (id, votedState (votingOf s id) sender approve)
              :: s.votingStates } now id).1 := congrArg Prod.fst hps
    subst hs'
    have hV : votingOf ((startRemediation
        { s with votingStates :=
            (id, votedState (votingOf s id) sender approve)
              :: s.votingStates } now id).1) id =
        votedState (votingOf s id) sender approve := by
      simp [votingOf, startRemediation, mlookup]
    have hC : (challengeOf ((startRemediation
        { s with votingStates :=
            (id, votedState (votingOf s id) sender approve)
              :: s.votingStates } now id).1) id).state =
        .REMEDIATION_ACTIVE := by
      simp [challengeOf_startRemediation]
    refine ⟨hfpi, ?_, ?_, ?_, ?_, fun _ => hC, ?_, ?_⟩
    · rw [hV]; rfl
    · rw [hV]; rfl
    · rw [hV]; rfl
    · rw [hV]; rfl
    · intro hlt _
      rw [hV] at hlt
      omega
    · intro hlt _
      rw [hV] at hlt
      omega
  · have hs' : s' = (finalizeFailed
        { s with votingStates :=
            (id, votedState (votingOf s id) sender approve)
              :: s.votingStates } id).1 := congrArg Prod.fst hps
    subst hs'
    have hV : votingOf ((finalizeFailed
        { s with votingStates :=
            (id, votedState (votingOf s id) sender approve)
              :: s.votingStates } id).1) id =
        votedState (votingOf s id) sender approve := by
      simp [votingOf, finalizeFailed, mlookup]
    have hC : (challengeOf ((finalizeFailed
        { s with votingStates :=
            (id, votedState (votingOf s id) sender approve)
              :: s.votingStates } id).1) id).state = .FAILED_FINAL := by
      simp [challengeOf_finalizeFailed]
    refine ⟨hfpi, ?_, ?_, ?_, ?_, ?_, fun _ _ => hC, ?_⟩
    · rw [hV]; rfl
    · rw [hV]; rfl
    · rw [hV]; rfl
    · rw [hV]; rfl
    · intro hge
      rw [hV] at hge
      omega
    · intro _ hle
      rw [hV] at hle
      omega
  · subst hps
    have hV : votingOf { s with votingStates :=
        (id, votedState (votingOf s id) sender approve)
          :: s.votingStates } id =
        votedState (votingOf s id) sender approve := by
      simp [votingOf, mlookup]
    have hC : challengeOf { s with votingStates :=
        (id, votedState (votingOf s id) sender approve)
          :: s.votingStates } id = challengeOf s id := rfl
    refine ⟨hfpi, ?_, ?_, ?_, ?_, ?_, ?_, fun _ _ => hC⟩
    · rw [hV]; rfl
    · rw [hV]; rfl
    · rw [hV]; rfl
    · rw [hV]; rfl
    · intro hge
      rw [hV] at hge
      omega
    · intro _ hgt
      rw [hV] at hgt
      omega

/-- Fixture: five guarantors (`requiredVotes = 3`). -/
def exCreate5 : Op := .createChallenge 2 0 5 [3, 4, 6, 7, 8] 1000000 100 "" true

/-- Fixture: five-guarantor challenge in the voting state after two "no"
votes (no early exit yet: `2 > 5 - 3` is false). -/
def exAfter2No : EscrowState :=
  (runAux (initState 1 9) []
    [exCreate5, .reportFailure 2 100 5,
     .castVote 3 101 5 false, .castVote 4 101 5 false]).1

/-- Fixture: outcome of the third "no" vote on `exAfter2No`
(`noCount = 3 > 5 - 3` forecloses the yes majority). -/
def exThirdNo : EscrowState × List Transfer :=
  finalizeFailed
    { exAfter2No with votingStates :=
        (5, votedState (votingOf exAfter2No 5) 6 false)
          :: exAfter2No.votingStates } 5

/-- Witness for C2: with 5 guarantors the third "no" ballot (no yes votes)
is accepted and immediately drives the challenge to FAILED_FINAL. -/
theorem C2_castVote_thresholds_witness :
    (challengeOf exThirdNo.1 5).state = .FAILED_FINAL :=
  (C2_castVote_thresholds exAfter2No 6 102 5 false exThirdNo.1 exThirdNo.2
      rfl).2.2.2.2.2.2.1 (by decide) (by decide)

/-- C6: when every validation of `createChallenge` passes but the inbound
token transfer fails, the call reverts with `TransferFailed` and the
committed ledger — challenge record, voting record, configuration and
transfer log alike — is exactly what it was before the call. -/
theorem C6_create_transfer_atomic (s : EscrowState) (sender now : Nat)
    (id : Bytes32) (gs : List Address) (amount duration : Nat) (uri : String)
    (h1 : MIN_DEPOSIT ≤ amount) (h2 : amount ≤ MAX_DEPOSIT)
    (h3 : 1 ≤ gs.length) (h4 : gs.length ≤ 10)
    (h5 : (challengeOf s id).user = 0)
    (h6 : guarantorsValid sender gs = true) :
    step s (.createChallenge sender now id gs amount duration uri false) =
      .error .TransferFailed ∧
    applyOp s (.createChallenge sender now id gs amount duration uri false) =
      (s, []) := by
  have hstep : step s
      (.createChallenge sender now id gs amount duration uri false) =
      .error .TransferFailed := by
    simp only [step, createChallenge]
    rw [if_neg (by omega), if_neg (by omega), if_neg (by simp [h5]),
      if_neg (by simp [h6]), if_pos (by simp)]
  exact ⟨hstep, applyOp_error hstep⟩

/-- Witness for C6 at a concrete, otherwise-valid creation whose deposit
transfer fails. -/
theorem C6_create_transfer_atomic_witness :
    step (initState 1 9) (.createChallenge 2 0 5 [3, 4, 6] 1000000 100 "" false) =
      .error .TransferFailed ∧
    applyOp (initState 1 9)
        (.createChallenge 2 0 5 [3, 4, 6] 1000000 100 "" false) =
      (initState 1 9, []) :=
  C6_create_transfer_atomic (initState 1 9) 2 0 5 [3, 4, 6] 1000000 100 ""
    (by decide) (by decide) (by decide) (by decide) (by decide) (by decide)

/-- C8 counterexample: creating a challenge whose id is already present
does fail and creates no record, but the revert is the state error
`InvalidState(ACTIVE, existing.state)` — the contract declares no
`DuplicateChallenge` error at all (see `Err`), so the claim's named error
cannot be what the caller receives. -/
theorem C8_duplicate_error_cex :
    createChallenge exState3 7 50 5 [4] 1000000 100 "" true =
      .error (.InvalidState .ACTIVE .ACTIVE) := by decide

/-- C8 amended: `createChallenge` on an id that is already present (and
with amount and guarantor-count validations, which the source checks
first, passing) fails with `InvalidState(ACTIVE, existing.state)` and
leaves the entire ledger unchanged. -/
theorem C8_duplicate_rejected (s : EscrowState) (sender now : Nat)
    (id : Bytes32) (gs : List Address) (amount duration : Nat) (uri : String)
    (tok : Bool)
    (h1 : MIN_DEPOSIT ≤ amount) (h2 : amount ≤ MAX_DEPOSIT)
    (h3 : 1 ≤ gs.length) (h4 : gs.length ≤ 10)
    (hdup : (challengeOf s id).user ≠ 0) :
    step s (.createChallenge sender now id gs amount duration uri tok) =
      .error (.InvalidState .ACTIVE (challengeOf s id).state) ∧
    applyOp s (.createChallenge sender now id gs amount duration uri tok) =
      (s, []) := by
  have hstep : step s
      (.createChallenge sender now id gs amount duration uri tok) =
      .error (.InvalidState .ACTIVE (challengeOf s id).state) := by
    simp only [step, createChallenge]
    rw [if_neg (by omega), if_neg (by omega), if_pos hdup]
  exact ⟨hstep, applyOp_error hstep⟩

/-- Witness for C8's amended statement at a concrete duplicate id. -/
theorem C8_duplicate_rejected_witness :
    step exState3 (.createChallenge 7 50 5 [4] 1000000 100 "" true) =
      .error (.InvalidState .ACTIVE (challengeOf exState3 5).state) ∧
    applyOp exState3 (.createChallenge 7 50 5 [4] 1000000 100 "" true) =
      (exState3, []) :=
  C8_duplicate_rejected exState3 7 50 5 [4] 1000000 100 "" true
    (by decide) (by decide) (by decide) (by decide) (by decide)

/-- C9: on a (reachable) REMEDIATION_ACTIVE challenge, `finalizeRemediation`
at `now ≤ remediationDeadline` reverts — but with the error the source
declares as `RemediationPeriodEnded`, although the remediation period has
not ended; no `RemediationPeriodActive` error exists in the contract.  At
`now > remediationDeadline` it moves the challenge to FAILED_FINAL, as the
claim states. -/
theorem C9_finalizeRemediation_error_name :
    (challengeOf exStateRem 5).state = .REMEDIATION_ACTIVE ∧
    (challengeOf exStateRem 5).remediationDeadline = 604902 ∧
    finalizeRemediation exStateRem 11 604902 5 =
      .error .RemediationPeriodEnded ∧
    finalizeRemediation exStateRem 11 604903 5 =
      .ok (finalizeFailed exStateRem 5) ∧
    (challengeOf (finalizeFailed exStateRem 5).1 5).state = .FAILED_FINAL := by
  refine ⟨by decide, by decide, by decide, rfl, by decide⟩

/-- The `voteValue` mapping defaults to `false`: an address outside the
`hasVoted` support is outside the `voteValue` support. -/
def VoteInv (s : EscrowState) : Prop :=
  ∀ id voter, voter ∉ (votingOf s id).hasVotedSet →
    voter ∉ (votingOf s id).voteTrueSet

theorem voteInv_votedCons {s : EscrowState} (id : Bytes32) (sender : Address)
    (approve : Bool) (hinv : VoteInv s) :
    VoteInv { s with votingStates :=
        (id, votedState (votingOf s id) sender approve) :: s.votingStates } := by
  intro id' voter hnv
  by_cases hii : id' = id
  · subst hii
    have hnv' : voter ∉ (votedState (votingOf s id') sender approve).hasVotedSet := by
      simpa [votingOf, mlookup] using hnv
    have hgoal : voter ∉ (votedState (votingOf s id') sender approve).voteTrueSet := by
      simp only [votedState, List.mem_cons, not_or] at hnv'
      cases approve with
      | true =>
          simp only [votedState, List.mem_cons, not_or, if_pos]
          exact ⟨hnv'.1, hinv id' voter hnv'.2⟩
      | false =>
          simpa [votedState] using hinv id' voter hnv'.2
    simpa [votingOf, mlookup] using hgoal
  · have hnv' : voter ∉ (votingOf s id').hasVotedSet := by
      simpa [votingOf, mlookup, hii] using hnv
    simpa [votingOf, mlookup, hii] using hinv id' voter hnv'

theorem voteInv_applyOp (s : EscrowState) (op : Op) (hinv : VoteInv s) :
    VoteInv (applyOp s op).1 := by
  cases op with
  | createChallenge sender now id gs amount duration uri tok =>
      cases h' : step s (.createChallenge sender now id gs amount duration uri tok) with
      | error e => rw [applyOp_error h']; exact hinv
      | ok p =>
          obtain ⟨s', ts⟩ := p
          obtain ⟨-, -, -, -, -, -, -, rfl, -⟩ :=
            createChallenge_ok_shape (by simpa [step] using h')
          intro id' voter hnv
          by_cases hii : id' = id
          · subst hii
            simp [applyOp, h', Op.targetId, votingOf, mlookup]
          · simp only [applyOp, h', Op.targetId] at hnv ⊢
            have hnv' : voter ∉ (votingOf s id').hasVotedSet := by
              simpa [votingOf, mlookup, hii] using hnv
            simpa [votingOf, mlookup, hii] using hinv id' voter hnv'
  | reportFailure sender now id =>
      cases h' : step s (.reportFailure sender now id) with
      | error e => rw [applyOp_error h']; exact hinv
      | ok p =>
          obtain ⟨s', ts⟩ := p
          obtain ⟨-, -, -, -, rfl, -⟩ :=
            reportFailure_ok_shape (by simpa [step] using h')
          intro id' voter hnv
          simp only [applyOp, h', Op.targetId] at hnv ⊢
          exact hinv id' voter hnv
  | castVote sender now id approve =>
      cases h' : step s (.castVote sender now id approve) with
      | error e => rw [applyOp_error h']; exact hinv
      | ok p =>
          obtain ⟨s', ts⟩ := p
          obtain ⟨-, -, -, -, -, hbr⟩ :=
            castVote_ok_shape (by simpa [step] using h')
          have hinv1 := voteInv_votedCons id sender approve hinv
          have hmain : VoteInv s' := by
            rcases hbr with ⟨-, hps⟩ | ⟨-, -, hps⟩ | ⟨-, -, hps, -⟩
            · rw [show s' = (startRemediation
                  { s with votingStates :=
                      (id, votedState (votingOf s id) sender approve)
                        :: s.votingStates } now id).1 from congrArg Prod.fst hps]
              intro id' voter hnv
              rw [votingOf_startRemediation] at hnv ⊢
              exact hinv1 id' voter hnv
            · rw [show s' = (finalizeFailed
                  { s with votingStates :=
                      (id, votedState (votingOf s id) sender approve)
                        :: s.votingStates } id).1 from congrArg Prod.fst hps]
              intro id' voter hnv
              rw [votingOf_finalizeFailed] at hnv ⊢
              exact hinv1 id' voter hnv
            · rw [hps]
              exact hinv1
          intro id' voter hnv
          simp only [applyOp, h', Op.targetId] at hnv ⊢
          exact hmain id' voter hnv
  | finalizeVoting sender now id =>
      cases h' : step s (.finalizeVoting sender now id) with
      | error e => rw [applyOp_error h']; exact hinv
      | ok p =>
          obtain ⟨s', ts⟩ := p
          obtain ⟨-, -, -, hbr⟩ :=
            finalizeVoting_ok_shape (by simpa [step] using h')
          have hmain : VoteInv s' := by
            rcases hbr with ⟨-, hps⟩ | ⟨-, hps⟩
            · rw [show s' = (startRemediation s now id).1 from
                congrArg Prod.fst hps]
              intro id' voter hnv
              rw [votingOf_startRemediation] at hnv ⊢
              exact hinv id' voter hnv
            · rw [show s' = (finalizeFailed s id).1 from congrArg Prod.fst hps]
              intro id' voter hnv
              rw [votingOf_finalizeFailed] at hnv ⊢
              exact hinv id' voter hnv
          intro id' voter hnv
          simp only [applyOp, h', Op.targetId] at hnv ⊢
          exact hmain id' voter hnv
  | completeChallenge sender now id =>
      cases h' : step s (.completeChallenge sender now id) with
      | error e => rw [applyOp_error h']; exact hinv
      | ok p =>
          obtain ⟨s', ts⟩ := p
          obtain ⟨-, -, -, rfl, -⟩ :=
            completeChallenge_ok_shape (by simpa [step] using h')
          intro id' voter hnv
          simp only [applyOp, h', Op.targetId] at hnv ⊢
          exact hinv id' voter hnv
  | finalizeRemediation sender now id =>
      cases h' : step s (.finalizeRemediation sender now id) with
      | error e => rw [applyOp_error h']; exact hinv
      | ok p =>
          obtain ⟨s', ts⟩ := p
          obtain ⟨-, -, -, hps⟩ :=
            finalizeRemediation_ok_shape (by simpa [step] using h')
          have hs' : s' = (finalizeFailed s id).1 := congrArg Prod.fst hps
          subst hs'
          intro id' voter hnv
          simp only [applyOp, h', Op.targetId] at hnv ⊢
          rw [votingOf_finalizeFailed] at hnv ⊢
          exact hinv id' voter hnv
  | setPlatformFee sender bps =>
      cases h' : step s (.setPlatformFee sender bps) with
      | error e => rw [applyOp_error h']; exact hinv
      | ok p =>
          obtain ⟨s', ts⟩ := p
          obtain ⟨-, -, rfl, -⟩ :=
            setPlatformFee_ok_shape (by simpa [step] using h')
          intro id' voter hnv
          simp only [applyOp, h', Op.targetId] at hnv ⊢
          exact hinv id' voter hnv
  | setFeeRecipient sender r =>
      cases h' : step s (.setFeeRecipient sender r) with
      | error e => rw [applyOp_error h']; exact hinv
      | ok p =>
          obtain ⟨s', ts⟩ := p
          obtain ⟨-, rfl, -⟩ :=
            setFeeRecipient_ok_shape (by simpa [step] using h')
          intro id' voter hnv
          simp only [applyOp, h', Op.targetId] at hnv ⊢
          exact hinv id' voter hnv
  | setTreasury sender t =>
      cases h' : step s (.setTreasury sender t) with
      | error e => rw [applyOp_error h']; exact hinv
      | ok p =>
          obtain ⟨s', ts⟩ := p
          obtain ⟨-, rfl, -⟩ :=
            setTreasury_ok_shape (by simpa [step] using h')
          intro id' voter hnv
          simp only [applyOp, h', Op.targetId] at hnv ⊢
          exact hinv id' voter hnv

theorem voteInv_runAux (ops : List Op) :
    ∀ (s : EscrowState) (log : List (Bytes32 × Transfer)),
      VoteInv s → VoteInv (runAux s log ops).1 := by
  induction ops with
  | nil => intro s log h; exact h
  | cons op ops ih =>
      intro s log h
      simp only [runAux]
      exact ih _ _ (voteInv_applyOp s op h)

theorem reachable_voteInv {s : EscrowState} (h : Reachable s) : VoteInv s := by
  obtain ⟨owner0, treasury0, ops, rfl⟩ := h
  refine voteInv_runAux ops _ [] ?_
  intro id voter hnv
  simp [votingOf, initState, mlookup, emptyVoting]

/-- C10: on any reachable contract state, `getVote` returns `false` for
every identity that has not cast a ballot — exactly the value it returns
for a recorded "no" ballot (after a successful `castVote(..., false)` the
voter's `getVote` is still `false` while `hasVoted` flips to `true`), so
the two situations are indistinguishable through `getVote` alone and only
`hasVoted` separates them. -/
theorem C10_getVote_default_false (s : EscrowState) (hs : Reachable s) :
    (∀ id voter, hasVoted s id voter = false → getVote s id voter = false) ∧
    (∀ sender now id s' ts, castVote s sender now id false = .ok (s', ts) →
      getVote s' id sender = false ∧ hasVoted s' id sender = true) := by
  have hinv : VoteInv s := reachable_voteInv hs
  constructor
  · intro id voter hnv
    have : voter ∉ (votingOf s id).hasVotedSet := by
      simpa [hasVoted] using hnv
    simpa [getVote] using hinv id voter this
  · intro sender now id s' ts h
    obtain ⟨-, -, -, hnv, -, hbr⟩ := castVote_ok_shape h
    have hV : votingOf s' id = votedState (votingOf s id) sender false := by
      rcases hbr with ⟨-, hps⟩ | ⟨-, -, hps⟩ | ⟨-, -, hps, -⟩
      · rw [show s' = (startRemediation
            { s with votingStates :=
                (id, votedState (votingOf s id) sender false)
                  :: s.votingStates } now id).1 from congrArg Prod.fst hps]
        rw [votingOf_startRemediation]
        simp [votingOf, mlookup]
      · rw [show s' = (finalizeFailed
            { s with votingStates :=
                (id, votedState (votingOf s id) sender false)
                  :: s.votingStates } id).1 from congrArg Prod.fst hps]
        rw [votingOf_finalizeFailed]
        simp [votingOf, mlookup]
      · rw [hps]
        simp [votingOf, mlookup]
    constructor
    · have : sender ∉ (votedState (votingOf s id) sender false).voteTrueSet := by
        simpa [votedState] using hinv id sender hnv
      simp [getVote, hV, this]
    · simp [hasVoted, hV, votedState]

/-- Fixture: the "no" ballot of guarantor 3 recorded on `exStateFPI`
(1 no ≤ 3 − 2, so voting continues). -/
def exVoteNoState : EscrowState :=
  { exStateFPI with votingStates :=
      (5, votedState (votingOf exStateFPI 5) 3 false)
        :: exStateFPI.votingStates }

/-- Witness for C10: guarantor 4 has not voted on the concrete challenge
and reads `false`; guarantor 3's recorded "no" also reads `false` while
`hasVoted` distinguishes the two. -/
theorem C10_getVote_default_false_witness :
    getVote exStateFPI 5 4 = false ∧
    (getVote exVoteNoState 5 3 = false ∧
      hasVoted exVoteNoState 5 3 = true) :=
  ⟨(C10_getVote_default_false exStateFPI
      ⟨1, 9, [exCreate3, .reportFailure 2 100 5], rfl⟩).1 5 4 (by decide),
   (C10_getVote_default_false exStateFPI
      ⟨1, 9, [exCreate3, .reportFailure 2 100 5], rfl⟩).2 3 101 5
      exVoteNoState [] (by decide)⟩

theorem mem_finalizeFailed_snd {s : EscrowState} {id : Bytes32} {t : Transfer}
    (h : t ∈ (finalizeFailed s id).2) : t.recipient = s.treasury := by
  rw [finalizeFailed_snd] at h
  split at h
  · simp only [List.mem_singleton] at h
    rw [h]
  · simp at h

/-- Every transfer emitted by an operation other than `completeChallenge`
goes to the treasury address configured at call time: forfeiture
(`_finalizeFailed`) is the only other transfer site in the contract. -/
theorem nonComplete_transfers_treasury (s : EscrowState) (op : Op)
    (hnc : op.isComplete = false) :
    ∀ p ∈ (applyOp s op).2, p.2.recipient = s.treasury := by
  cases op with
  | completeChallenge sender now id => simp [Op.isComplete] at hnc
  | createChallenge sender now id gs amount duration uri tok =>
      cases h' : step s (.createChallenge sender now id gs amount duration uri tok) with
      | error e => rw [applyOp_error h']; intro p hp; simp at hp
      | ok p =>
          obtain ⟨s', ts⟩ := p
          obtain ⟨-, -, -, -, -, -, -, -, rfl⟩ :=
            createChallenge_ok_shape (by simpa [step] using h')
          intro p hp
          simp [applyOp, h', Op.targetId] at hp
  | reportFailure sender now id =>
      cases h' : step s (.reportFailure sender now id) with
      | error e => rw [applyOp_error h']; intro p hp; simp at hp
      | ok p =>
          obtain ⟨s', ts⟩ := p
          obtain ⟨-, -, -, -, -, rfl⟩ :=
            reportFailure_ok_shape (by simpa [step] using h')
          intro p hp
          simp [applyOp, h', Op.targetId] at hp
  | castVote sender now id approve =>
      cases h' : step s (.castVote sender now id approve) with
      | error e => rw [applyOp_error h']; intro p hp; simp at hp
      | ok p =>
          obtain ⟨s', ts⟩ := p
          obtain ⟨-, -, -, -, -, hbr⟩ :=
            castVote_ok_shape (by simpa [step] using h')
          intro p hp
          simp only [applyOp, h', Op.targetId] at hp
          obtain ⟨t, ht, rfl⟩ := List.mem_map.mp hp
          rcases hbr with ⟨-, hps⟩ | ⟨-, -, hps⟩ | ⟨-, -, -, hts⟩
          · rw [show ts = (startRemediation
                { s with votingStates :=
                    (id, votedState (votingOf s id) sender approve)
                      :: s.votingStates } now id).2 from congrArg Prod.snd hps,
              startRemediation_snd] at ht
            simp at ht
          · rw [show ts = (finalizeFailed
                { s with votingStates :=
                    (id, votedState (votingOf s id) sender approve)
                      :: s.votingStates } id).2 from congrArg Prod.snd hps] at ht
            exact mem_finalizeFailed_snd ht
          · rw [hts] at ht
            simp at ht
  | finalizeVoting sender now id =>
      cases h' : step s (.finalizeVoting sender now id) with
      | error e => rw [applyOp_error h']; intro p hp; simp at hp
      | ok p =>
          obtain ⟨s', ts⟩ := p
          obtain ⟨-, -, -, hbr⟩ :=
            finalizeVoting_ok_shape (by simpa [step] using h')
          intro p hp
          simp only [applyOp, h', Op.targetId] at hp
          obtain ⟨t, ht, rfl⟩ := List.mem_map.mp hp
          rcases hbr with ⟨-, hps⟩ | ⟨-, hps⟩
          · rw [show ts = (startRemediation s now id).2 from
              congrArg Prod.snd hps, startRemediation_snd] at ht
            simp at ht
          · rw [show ts = (finalizeFailed s id).2 from
              congrArg Prod.snd hps] at ht
            exact mem_finalizeFailed_snd ht
  | finalizeRemediation sender now id =>
      cases h' : step s (.finalizeRemediation sender now id) with
      | error e => rw [applyOp_error h']; intro p hp; simp at hp
      | ok p =>
          obtain ⟨s', ts⟩ := p
          obtain ⟨-, -, -, hps⟩ :=
            finalizeRemediation_ok_shape (by simpa [step] using h')
          intro p hp
          simp only [applyOp, h', Op.targetId] at hp
          obtain ⟨t, ht, rfl⟩ := List.mem_map.mp hp
          rw [show ts = (finalizeFailed s id).2 from congrArg Prod.snd hps] at ht
          exact mem_finalizeFailed_snd ht
  | setPlatformFee sender bps =>
      cases h' : step s (.setPlatformFee sender bps) with
      | error e => rw [applyOp_error h']; intro p hp; simp at hp
      | ok p =>
          obtain ⟨s', ts⟩ := p
          intro p hp
          simp [applyOp, h', Op.targetId] at hp
  | setFeeRecipient sender r =>
      cases h' : step s (.setFeeRecipient sender r) with
      | error e => rw [applyOp_error h']; intro p hp; simp at hp
      | ok p =>
          obtain ⟨s', ts⟩ := p
          intro p hp
          simp [applyOp, h', Op.targetId] at hp
  | setTreasury sender t =>
      cases h' : step s (.setTreasury sender t) with
      | error e => rw [applyOp_error h']; intro p hp; simp at hp
      | ok p =>
          obtain ⟨s', ts⟩ := p
          intro p hp
          simp [applyOp, h', Op.targetId] at hp

/-- C5: for a challenge in ACTIVE or REMEDIATION_ACTIVE, a
`completeChallenge` call by a guarantor — or by the owner once
`now ≥ endTime` — succeeds, sets COMPLETED and emits exactly the fee
transfer `amount * feeBps / 10000` to the fee recipient (only when the
fee is nonzero and a recipient is configured) followed by the payout
`amount - fee` to the owner; and no other operation emits any transfer
except forfeiture transfers to the treasury, so `completeChallenge` is
the only path that pays the owner (the owner and the treasury being
distinct parties). -/
theorem C5_completeChallenge_payout (s : EscrowState) (sender now : Nat)
    (id : Bytes32)
    (hu : (challengeOf s id).user ≠ 0)
    (hst : (challengeOf s id).state = .ACTIVE ∨
      (challengeOf s id).state = .REMEDIATION_ACTIVE)
    (hauth : sender ∈ (votingOf s id).guarantors ∨
      (sender = (challengeOf s id).user ∧ (challengeOf s id).endTime ≤ now)) :
    completeChallenge s sender now id =
      .ok ({ s with challenges :=
              (id, { (challengeOf s id) with state := .COMPLETED })
                :: s.challenges },
        feeTransfers s.feeRecipient
            ((challengeOf s id).amount * s.platformFeeBps / 10000) ++
          [⟨(challengeOf s id).user,
            (challengeOf s id).amount -
              (challengeOf s id).amount * s.platformFeeBps / 10000⟩]) ∧
    (∀ s2 op, op.isComplete = false →
      ∀ p ∈ (applyOp s2 op).2, p.2.recipient = s2.treasury) := by
  constructor
  · simp only [completeChallenge]
    rw [if_neg hu, if_neg (by rcases hst with h | h <;> simp [h]),
      if_neg (fun hc => by
        rcases hauth with h | h
        · exact hc.1 h
        · exact hc.2 ⟨h.1, h.2⟩)]
    rfl
  · exact fun s2 op hnc => nonComplete_transfers_treasury s2 op hnc

/-- Witness for C5: guarantor 3 completes the concrete challenge during
remediation; a `finalizeRemediation` on the same ledger pays only the
treasury. -/
theorem C5_completeChallenge_payout_witness :
    completeChallenge exStateRem 3 200 5 =
      .ok ({ exStateRem with challenges :=
              (5, { (challengeOf exStateRem 5) with state := .COMPLETED })
                :: exStateRem.challenges },
        feeTransfers exStateRem.feeRecipient
            ((challengeOf exStateRem 5).amount * exStateRem.platformFeeBps / 10000) ++
          [⟨(challengeOf exStateRem 5).user,
            (challengeOf exStateRem 5).amount -
              (challengeOf exStateRem 5).amount * exStateRem.platformFeeBps / 10000⟩]) ∧
    (∀ p ∈ (applyOp exStateRem (.finalizeRemediation 7 999999 5)).2,
      p.2.recipient = exStateRem.treasury) := by
  have h := C5_completeChallenge_payout exStateRem 3 200 5 (by decide)
    (by decide) (by decide)
  exact ⟨h.1, h.2 exStateRem (.finalizeRemediation 7 999999 5) rfl⟩

/-- C3: once a challenge is COMPLETED or FAILED_FINAL, (i) every lifecycle
operation addressed to it reverts with the state error
`InvalidState(expected, actual)` and commits nothing, and (ii) no
operation whatsoever — including creations, votes on other challenges and
admin calls — changes its record or its voting tallies or moves any of
its funds; in particular no transition leaves a terminal state.
(A repeated `createChallenge` on the id is C8's subject: it, too, fails
and commits nothing, which conjunct (ii) covers.) -/
theorem C3_terminal_states_absorbing (s : EscrowState) (id : Bytes32)
    (hu : (challengeOf s id).user ≠ 0)
    (hterm : (challengeOf s id).state = .COMPLETED ∨
      (challengeOf s id).state = .FAILED_FINAL) :
    (∀ op, op.lifecycleId = some id →
      (∃ exp, step s op = .error (.InvalidState exp (challengeOf s id).state)) ∧
      applyOp s op = (s, [])) ∧
    (∀ op, challengeOf (applyOp s op).1 id = challengeOf s id ∧
      votingOf (applyOp s op).1 id = votingOf s id ∧
      disb (applyOp s op).2 id = []) := by
  have hnA : (challengeOf s id).state ≠ .ACTIVE := by
    rcases hterm with h | h <;> simp [h]
  have hnF : (challengeOf s id).state ≠ .FAILED_PENDING_INSURANCE := by
    rcases hterm with h | h <;> simp [h]
  have hnR : (challengeOf s id).state ≠ .REMEDIATION_ACTIVE := by
    rcases hterm with h | h <;> simp [h]
  constructor
  · intro op hop
    cases op with
    | createChallenge sender now id0 gs amount duration uri tok =>
        simp [Op.lifecycleId] at hop
    | setPlatformFee sender bps => simp [Op.lifecycleId] at hop
    | setFeeRecipient sender r => simp [Op.lifecycleId] at hop
    | setTreasury sender t => simp [Op.lifecycleId] at hop
    | reportFailure sender now id0 =>
        simp only [Op.lifecycleId, Option.some.injEq] at hop
        subst hop
        have hstep : step s (.reportFailure sender now id0) =
            .error (.InvalidState .ACTIVE (challengeOf s id0).state) := by
          simp only [step, reportFailure]
          rw [if_neg hu, if_pos hnA]
        exact ⟨⟨.ACTIVE, hstep⟩, applyOp_error hstep⟩
    | castVote sender now id0 approve =>
        simp only [Op.lifecycleId, Option.some.injEq] at hop
        subst hop
        have hstep : step s (.castVote sender now id0 approve) =
            .error (.InvalidState .FAILED_PENDING_INSURANCE
              (challengeOf s id0).state) := by
          simp only [step, castVote]
          rw [if_neg hu, if_pos hnF]
        exact ⟨⟨.FAILED_PENDING_INSURANCE, hstep⟩, applyOp_error hstep⟩
    | finalizeVoting sender now id0 =>
        simp only [Op.lifecycleId, Option.some.injEq] at hop
        subst hop
        have hstep : step s (.finalizeVoting sender now id0) =
            .error (.InvalidState .FAILED_PENDING_INSURANCE
              (challengeOf s id0).state) := by
          simp only [step, finalizeVoting]
          rw [if_neg hu, if_pos hnF]
        exact ⟨⟨.FAILED_PENDING_INSURANCE, hstep⟩, applyOp_error hstep⟩
    | completeChallenge sender now id0 =>
        simp only [Op.lifecycleId, Option.some.injEq] at hop
        subst hop
        have hstep : step s (.completeChallenge sender now id0) =
            .error (.InvalidState .ACTIVE (challengeOf s id0).state) := by
          simp only [step, completeChallenge]
          rw [if_neg hu, if_pos ⟨hnA, hnR⟩]
        exact ⟨⟨.ACTIVE, hstep⟩, applyOp_error hstep⟩
    | finalizeRemediation sender now id0 =>
        simp only [Op.lifecycleId, Option.some.injEq] at hop
        subst hop
        have hstep : step s (.finalizeRemediation sender now id0) =
            .error (.InvalidState .REMEDIATION_ACTIVE
              (challengeOf s id0).state) := by
          simp only [step, finalizeRemediation]
          rw [if_neg hu, if_pos hnR]
        exact ⟨⟨.REMEDIATION_ACTIVE, hstep⟩, applyOp_error hstep⟩
  · intro op
    cases op with
    | createChallenge sender now id0 gs amount duration uri tok =>
        cases h' : step s (.createChallenge sender now id0 gs amount duration uri tok) with
        | error e => rw [applyOp_error h']; exact ⟨rfl, rfl, rfl⟩
        | ok p =>
            obtain ⟨s', ts⟩ := p
            obtain ⟨-, -, -, -, hu0, -, -, rfl, rfl⟩ :=
              createChallenge_ok_shape (by simpa [step] using h')
            have hne : id ≠ id0 := fun hh => hu (by rw [hh, hu0])
            simp only [applyOp, h', Op.targetId]
            exact ⟨by simp [challengeOf, mlookup, hne],
              by simp [votingOf, mlookup, hne], disb_tag_ne hne []⟩
    | reportFailure sender now id0 =>
        cases h' : step s (.reportFailure sender now id0) with
        | error e => rw [applyOp_error h']; exact ⟨rfl, rfl, rfl⟩
        | ok p =>
            obtain ⟨s', ts⟩ := p
            obtain ⟨-, hstA, -, -, rfl, rfl⟩ :=
              reportFailure_ok_shape (by simpa [step] using h')
            have hne : id ≠ id0 := fun hh => hnA (by rw [hh, hstA])
            simp only [applyOp, h', Op.targetId]
            exact ⟨by simp [challengeOf, mlookup, hne], rfl, disb_tag_ne hne []⟩
    | castVote sender now id0 approve =>
        cases h' : step s (.castVote sender now id0 approve) with
        | error e => rw [applyOp_error h']; exact ⟨rfl, rfl, rfl⟩
        | ok p =>
            obtain ⟨s', ts⟩ := p
            obtain ⟨-, hstF, -, -, -, hbr⟩ :=
              castVote_ok_shape (by simpa [step] using h')
            have hne : id ≠ id0 := fun hh => hnF (by rw [hh, hstF])
            simp only [applyOp, h', Op.targetId]
            refine ⟨?_, ?_, disb_tag_ne hne ts⟩ <;>
              rcases hbr with ⟨-, hps⟩ | ⟨-, -, hps⟩ | ⟨-, -, hps, -⟩ <;>
                first
                  | (rw [show s' = (startRemediation
                        { s with votingStates :=
                            (id0, votedState (votingOf s id0) sender approve)
                              :: s.votingStates } now id0).1 from
                        congrArg Prod.fst hps]
                     simp [challengeOf_startRemediation,
                       votingOf_startRemediation, challengeOf, votingOf,
                       mlookup, hne])
                  | (rw [show s' = (finalizeFailed
                        { s with votingStates :=
                            (id0, votedState (votingOf s id0) sender approve)
                              :: s.votingStates } id0).1 from
                        congrArg Prod.fst hps]
                     simp [challengeOf_finalizeFailed,
                       votingOf_finalizeFailed, challengeOf, votingOf,
                       mlookup, hne])
                  | (rw [hps]
                     simp [challengeOf, votingOf, mlookup, hne])
    | finalizeVoting sender now id0 =>
        cases h' : step s (.finalizeVoting sender now id0) with
        | error e => rw [applyOp_error h']; exact ⟨rfl, rfl, rfl⟩
        | ok p =>
            obtain ⟨s', ts⟩ := p
            obtain ⟨-, hstF, -, hbr⟩ :=
              finalizeVoting_ok_shape (by simpa [step] using h')
            have hne : id ≠ id0 := fun hh => hnF (by rw [hh, hstF])
            simp only [applyOp, h', Op.targetId]
            refine ⟨?_, ?_, disb_tag_ne hne ts⟩ <;>
              rcases hbr with ⟨-, hps⟩ | ⟨-, hps⟩ <;>
                first
                  | (rw [show s' = (startRemediation s now id0).1 from
                        congrArg Prod.fst hps]
                     simp [challengeOf_startRemediation,
                       votingOf_startRemediation, hne])
                  | (rw [show s' = (finalizeFailed s id0).1 from
                        congrArg Prod.fst hps]
                     simp [challengeOf_finalizeFailed,
                       votingOf_finalizeFailed, hne])
    | completeChallenge sender now id0 =>
        cases h' : step s (.completeChallenge sender now id0) with
        | error e => rw [applyOp_error h']; exact ⟨rfl, rfl, rfl⟩
        | ok p =>
            obtain ⟨s', ts⟩ := p
            obtain ⟨-, hstAR, -, rfl, -⟩ :=
              completeChallenge_ok_shape (by simpa [step] using h')
            have hne : id ≠ id0 := fun hh => by
              rcases hstAR with h | h
              · exact hnA (by rw [hh, h])
              · exact hnR (by rw [hh, h])
            simp only [applyOp, h', Op.targetId]
            exact ⟨by simp [challengeOf, mlookup, hne], rfl, disb_tag_ne hne ts⟩
    | finalizeRemediation sender now id0 =>
        cases h' : step s (.finalizeRemediation sender now id0) with
        | error e => rw [applyOp_error h']; exact ⟨rfl, rfl, rfl⟩
        | ok p =>
            obtain ⟨s', ts⟩ := p
            obtain ⟨-, hstR, -, hps⟩ :=
              finalizeRemediation_ok_shape (by simpa [step] using h')
            have hne : id ≠ id0 := fun hh => hnR (by rw [hh, hstR])
            have hs' : s' = (finalizeFailed s id0).1 := congrArg Prod.fst hps
            subst hs'
            simp only [applyOp, h', Op.targetId]
            exact ⟨by simp [challengeOf_finalizeFailed, hne],
              by simp [votingOf_finalizeFailed], disb_tag_ne hne ts⟩
    | setPlatformFee sender bps =>
        cases h' : step s (.setPlatformFee sender bps) with
        | error e => rw [applyOp_error h']; exact ⟨rfl, rfl, rfl⟩
        | ok p =>
            obtain ⟨s', ts⟩ := p
            obtain ⟨-, -, rfl, -⟩ :=
              setPlatformFee_ok_shape (by simpa [step] using h')
            simp only [applyOp, h', Op.targetId]
            exact ⟨rfl, rfl, rfl⟩
    | setFeeRecipient sender r =>
        cases h' : step s (.setFeeRecipient sender r) with
        | error e => rw [applyOp_error h']; exact ⟨rfl, rfl, rfl⟩
        | ok p =>
            obtain ⟨s', ts⟩ := p
            obtain ⟨-, rfl, -⟩ :=
              setFeeRecipient_ok_shape (by simpa [step] using h')
            simp only [applyOp, h', Op.targetId]
            exact ⟨rfl, rfl, rfl⟩
    | setTreasury sender t =>
        cases h' : step s (.setTreasury sender t) with
        | error e => rw [applyOp_error h']; exact ⟨rfl, rfl, rfl⟩
        | ok p =>
            obtain ⟨s', ts⟩ := p
            obtain ⟨-, rfl, -⟩ :=
              setTreasury_ok_shape (by simpa [step] using h')
            simp only [applyOp, h', Op.targetId]
            exact ⟨rfl, rfl, rfl⟩

/-- Fixture: terminal failure — three guarantors, owner report, then two
"no" votes (`2 > 3 - 2` forecloses the majority), full amount forfeited. -/
def exStateFF : EscrowState :=
  (runAux (initState 1 9) []
    [exCreate3, .reportFailure 2 100 5,
     .castVote 4 101 5 false, .castVote 6 102 5 false]).1

/-- Witness for C3: on the concrete FAILED_FINAL challenge, a guarantor's
`completeChallenge` reverts with a state error and commits nothing, and an
admin call leaves the record, tallies and funds untouched. -/
theorem C3_terminal_states_absorbing_witness :
    ((∃ exp, step exStateFF (.completeChallenge 3 300 5) =
        .error (.InvalidState exp (challengeOf exStateFF 5).state)) ∧
      applyOp exStateFF (.completeChallenge 3 300 5) = (exStateFF, [])) ∧
    (challengeOf (applyOp exStateFF (.setTreasury 1 3)).1 5 =
        challengeOf exStateFF 5 ∧
      votingOf (applyOp exStateFF (.setTreasury 1 3)).1 5 =
        votingOf exStateFF 5 ∧
      disb (applyOp exStateFF (.setTreasury 1 3)).2 5 = []) :=
  ⟨(C3_terminal_states_absorbing exStateFF 5 (by decide) (by decide)).1
      (.completeChallenge 3 300 5) rfl,
   (C3_terminal_states_absorbing exStateFF 5 (by decide) (by decide)).2
      (.setTreasury 1 3)⟩

/-- Per-challenge disbursement discipline, relating a challenge record to
the transfers the log attributes to it: nothing is paid out before a
terminal state; COMPLETED pays the owner `amount - fee` (preceded by the
fee transfer when one was due); FAILED_FINAL pays one full-`amount`
transfer to a (nonzero) treasury address. -/
def DisbursedOk (c : Challenge) (d : List Transfer) : Prop :=
  (c.user = 0 → c.state = .ACTIVE ∧ d = []) ∧
  ((c.state = .ACTIVE ∨ c.state = .FAILED_PENDING_INSURANCE ∨
      c.state = .REMEDIATION_ACTIVE) → d = []) ∧
  (c.state = .COMPLETED →
    ∃ fee fr, fee ≤ c.amount ∧
      d = feeTransfers fr fee ++ [⟨c.user, c.amount - fee⟩]) ∧
  (c.state = .FAILED_FINAL → ∃ t, t ≠ 0 ∧ d = [⟨t, c.amount⟩])

/-- Global ledger invariant for the disbursement claim: treasury
configured, fee rate within the contract's own cap, and every challenge's
log satisfying `DisbursedOk`. -/
def LedgerInv (s : EscrowState) (log : List (Bytes32 × Transfer)) : Prop :=
  s.treasury ≠ 0 ∧ s.platformFeeBps ≤ 1000 ∧
  ∀ id, DisbursedOk (challengeOf s id) (disb log id)

/-- Operations that never unset the treasury (`setTreasury 0` is the one
admin action that can leave forfeited funds sitting in the contract). -/
def TreasuryKept : Op → Bool
  | .setTreasury _ t => t != 0
  | _ => true

theorem disb_log_append_tag (log : List (Bytes32 × Transfer))
    (ts : List Transfer) (id0 id : Bytes32) :
    disb (log ++ ts.map (fun t => (id0, t))) id =
      disb log id ++ (if id = id0 then ts else []) := by
  rw [disb_append]
  by_cases h : id = id0
  · subst h
    rw [disb_tag_self, if_pos rfl]
  · rw [disb_tag_ne h, if_neg h]

theorem disbursedOk_congr {c c' : Challenge} {d d' : List Transfer}
    (hc : c' = c) (hd : d' = d) (h : DisbursedOk c d) : DisbursedOk c' d' := by
  rw [hc, hd]
  exact h

theorem fee_le_amount (amount bps : Nat) (h : bps ≤ 1000) :
    amount * bps / 10000 ≤ amount :=
  calc amount * bps / 10000
      ≤ amount * 10000 / 10000 :=
        Nat.div_le_div_right (Nat.mul_le_mul_left amount (by omega))
    _ = amount := by omega

theorem disbursedOk_of_nonterminal (c : Challenge)
    (hu : c.user ≠ 0 ∨ c.state = .ACTIVE)
    (h : c.state = .ACTIVE ∨ c.state = .FAILED_PENDING_INSURANCE ∨
      c.state = .REMEDIATION_ACTIVE) :
    DisbursedOk c [] := by
  refine ⟨?_, fun _ => rfl, ?_, ?_⟩
  · intro h0
    rcases hu with hu | hA
    · exact absurd h0 hu
    · exact ⟨hA, rfl⟩
  · intro hC
    rcases h with h | h | h <;> rw [h] at hC <;> exact absurd hC (by decide)
  · intro hF
    rcases h with h | h | h <;> rw [h] at hF <;> exact absurd hF (by decide)

theorem disbursedOk_completed (c : Challenge) (hst : c.state = .COMPLETED)
    (hu : c.user ≠ 0) (fee fr : Nat) (hfee : fee ≤ c.amount) :
    DisbursedOk c (feeTransfers fr fee ++ [⟨c.user, c.amount - fee⟩]) := by
  refine ⟨fun h0 => absurd h0 hu, ?_, fun _ => ⟨fee, fr, hfee, rfl⟩, ?_⟩
  · intro hn
    rcases hn with h | h | h <;> rw [hst] at h <;> exact absurd h (by decide)
  · intro hF
    rw [hst] at hF
    exact absurd hF (by decide)

theorem disbursedOk_failedFinal (c : Challenge) (hst : c.state = .FAILED_FINAL)
    (hu : c.user ≠ 0) (t : Address) (ht : t ≠ 0) :
    DisbursedOk c [⟨t, c.amount⟩] := by
  refine ⟨fun h0 => absurd h0 hu, ?_, ?_, fun _ => ⟨t, ht, rfl⟩⟩
  · intro hn
    rcases hn with h | h | h <;> rw [hst] at h <;> exact absurd h (by decide)
  · intro hC
    rw [hst] at hC
    exact absurd hC (by decide)

theorem ledgerInv_startRemediation_target {s : EscrowState}
    {log : List (Bytes32 × Transfer)} {now : Nat} {id0 : Bytes32}
    (htr : s.treasury ≠ 0) (hbps : s.platformFeeBps ≤ 1000)
    (hids : ∀ id, DisbursedOk (challengeOf s id) (disb log id))
    (hu : (challengeOf s id0).user ≠ 0)
    (hd0 : disb log id0 = []) :
    LedgerInv (startRemediation s now id0).1
      (log ++ (startRemediation s now id0).2.map (fun t => (id0, t))) := by
  refine ⟨htr, hbps, ?_⟩
  intro id
  rw [startRemediation_snd, disb_log_append_tag]
  by_cases hii : id = id0
  · subst hii
    rw [challengeOf_startRemediation, if_pos rfl]
    have hd : disb log id ++ (if id = id then ([] : List Transfer) else []) = [] := by
      simp [hd0]
    rw [hd]
    exact disbursedOk_of_nonterminal _ (Or.inl hu) (Or.inr (Or.inr rfl))
  · rw [challengeOf_startRemediation, if_neg hii]
    have hd : disb log id ++ (if id = id0 then ([] : List Transfer) else []) =
        disb log id := by simp
    rw [hd]
    exact hids id

theorem ledgerInv_finalizeFailed_target {s : EscrowState}
    {log : List (Bytes32 × Transfer)} {id0 : Bytes32}
    (htr : s.treasury ≠ 0) (hbps : s.platformFeeBps ≤ 1000)
    (hids : ∀ id, DisbursedOk (challengeOf s id) (disb log id))
    (hu : (challengeOf s id0).user ≠ 0)
    (hd0 : disb log id0 = []) :
    LedgerInv (finalizeFailed s id0).1
      (log ++ (finalizeFailed s id0).2.map (fun t => (id0, t))) := by
  refine ⟨htr, hbps, ?_⟩
  intro id
  rw [finalizeFailed_snd, if_pos htr, disb_log_append_tag]
  by_cases hii : id = id0
  · subst hii
    rw [challengeOf_finalizeFailed, if_pos rfl, hd0, if_pos rfl,
      List.nil_append]
    exact disbursedOk_failedFinal { (challengeOf s id) with state := .FAILED_FINAL } rfl hu s.treasury htr
  · rw [challengeOf_finalizeFailed, if_neg hii, if_neg hii,
      List.append_nil]
    exact hids id

theorem ledgerInv_applyOp (s : EscrowState) (log : List (Bytes32 × Transfer))
    (op : Op) (hop : TreasuryKept op = true) (hinv : LedgerInv s log) :
    LedgerInv (applyOp s op).1 (log ++ (applyOp s op).2) := by
  obtain ⟨htr, hbps, hids⟩ := hinv
  cases op with
  | createChallenge sender now id0 gs amount duration uri tok =>
      cases h' : step s (.createChallenge sender now id0 gs amount duration uri tok) with
      | error e =>
          rw [applyOp_error h']
          exact ⟨htr, hbps, by simpa using hids⟩
      | ok p =>
          obtain ⟨s', ts⟩ := p
          obtain ⟨-, -, -, -, hu0, -, -, hs', rfl⟩ :=
            createChallenge_ok_shape (by simpa [step] using h')
          simp only [applyOp, h', Op.targetId]
          refine ⟨by rw [hs']; exact htr, by rw [hs']; exact hbps, ?_⟩
          intro id
          rw [List.map_nil, List.append_nil]
          by_cases hii : id = id0
          · subst hii
            have hd0 : disb log id = [] := ((hids id).1 hu0).2
            rw [hd0]
            refine disbursedOk_of_nonterminal _ (Or.inr ?_) (Or.inl ?_) <;>
              rw [hs'] <;> simp [challengeOf, mlookup]
          · have hcc : challengeOf s' id = challengeOf s id := by
              rw [hs']
              simp [challengeOf, mlookup, hii]
            exact disbursedOk_congr hcc rfl (hids id)
  | reportFailure sender now id0 =>
      cases h' : step s (.reportFailure sender now id0) with
      | error e =>
          rw [applyOp_error h']
          exact ⟨htr, hbps, by simpa using hids⟩
      | ok p =>
          obtain ⟨s', ts⟩ := p
          obtain ⟨hu, hstA, -, -, hs', rfl⟩ :=
            reportFailure_ok_shape (by simpa [step] using h')
          simp only [applyOp, h', Op.targetId]
          refine ⟨by rw [hs']; exact htr, by rw [hs']; exact hbps, ?_⟩
          intro id
          rw [List.map_nil, List.append_nil]
          by_cases hii : id = id0
          · subst hii
            have hd0 : disb log id = [] := (hids id).2.1 (Or.inl hstA)
            rw [hd0]
            refine disbursedOk_of_nonterminal _ (Or.inl ?_) (Or.inr (Or.inl ?_))
            · rw [hs']
              simpa [challengeOf, mlookup] using hu
            · rw [hs']
              simp [challengeOf, mlookup]
          · have hcc : challengeOf s' id = challengeOf s id := by
              rw [hs']
              simp [challengeOf, mlookup, hii]
            exact disbursedOk_congr hcc rfl (hids id)
  | castVote sender now id0 approve =>
      cases h' : step s (.castVote sender now id0 approve) with
      | error e =>
          rw [applyOp_error h']
          exact ⟨htr, hbps, by simpa using hids⟩
      | ok p =>
          obtain ⟨s', ts⟩ := p
          obtain ⟨hu, hstF, -, -, -, hbr⟩ :=
            castVote_ok_shape (by simpa [step] using h')
          have hd0 : disb log id0 = [] := (hids id0).2.1 (Or.inr (Or.inl hstF))
          simp only [applyOp, h', Op.targetId]
          rcases hbr with ⟨-, hps⟩ | ⟨-, -, hps⟩ | ⟨-, -, hps, hts⟩
          · rw [show s' = (startRemediation
                { s with votingStates :=
                    (id0, votedState (votingOf s id0) sender approve)
                      :: s.votingStates } now id0).1 from congrArg Prod.fst hps,
              show ts = (startRemediation
                { s with votingStates :=
                    (id0, votedState (votingOf s id0) sender approve)
                      :: s.votingStates } now id0).2 from congrArg Prod.snd hps]
            exact ledgerInv_startRemediation_target htr hbps hids hu hd0
          · rw [show s' = (finalizeFailed
                { s with votingStates :=
                    (id0, votedState (votingOf s id0) sender approve)
                      :: s.votingStates } id0).1 from congrArg Prod.fst hps,
              show ts = (finalizeFailed
                { s with votingStates :=
                    (id0, votedState (votingOf s id0) sender approve)
                      :: s.votingStates } id0).2 from congrArg Prod.snd hps]
            exact ledgerInv_finalizeFailed_target htr hbps hids hu hd0
          · rw [hps, hts, List.map_nil, List.append_nil]
            exact ⟨htr, hbps, hids⟩
  | finalizeVoting sender now id0 =>
      cases h' : step s (.finalizeVoting sender now id0) with
      | error e =>
          rw [applyOp_error h']
          exact ⟨htr, hbps, by simpa using hids⟩
      | ok p =>
          obtain ⟨s', ts⟩ := p
          obtain ⟨hu, hstF, -, hbr⟩ :=
            finalizeVoting_ok_shape (by simpa [step] using h')
          have hd0 : disb log id0 = [] := (hids id0).2.1 (Or.inr (Or.inl hstF))
          simp only [applyOp, h', Op.targetId]
          rcases hbr with ⟨-, hps⟩ | ⟨-, hps⟩
          · rw [show s' = (startRemediation s now id0).1 from
                congrArg Prod.fst hps,
              show ts = (startRemediation s now id0).2 from
                congrArg Prod.snd hps]
            exact ledgerInv_startRemediation_target htr hbps hids hu hd0
          · rw [show s' = (finalizeFailed s id0).1 from congrArg Prod.fst hps,
              show ts = (finalizeFailed s id0).2 from congrArg Prod.snd hps]
            exact ledgerInv_finalizeFailed_target htr hbps hids hu hd0
  | completeChallenge sender now id0 =>
      cases h' : step s (.completeChallenge sender now id0) with
      | error e =>
          rw [applyOp_error h']
          exact ⟨htr, hbps, by simpa using hids⟩
      | ok p =>
          obtain ⟨s', ts⟩ := p
          obtain ⟨hu, hstAR, -, hs', hts⟩ :=
            completeChallenge_ok_shape (by simpa [step] using h')
          have hd0 : disb log id0 = [] := by
            rcases hstAR with h | h
            · exact (hids id0).2.1 (Or.inl h)
            · exact (hids id0).2.1 (Or.inr (Or.inr h))
          simp only [applyOp, h', Op.targetId]
          refine ⟨by rw [hs']; exact htr, by rw [hs']; exact hbps, ?_⟩
          intro id
          rw [hts, disb_log_append_tag]
          by_cases hii : id = id0
          · subst hii
            rw [hd0, if_pos rfl, List.nil_append]
            have hcc : challengeOf s' id =
                { (challengeOf s id) with state := .COMPLETED } := by
              rw [hs']
              simp [challengeOf, mlookup]
            rw [hcc]
            exact disbursedOk_completed
              { (challengeOf s id) with state := .COMPLETED } rfl hu
              ((challengeOf s id).amount * s.platformFeeBps / 10000)
              s.feeRecipient (fee_le_amount _ _ hbps)
          · rw [if_neg hii, List.append_nil]
            have hcc : challengeOf s' id = challengeOf s id := by
              rw [hs']
              simp [challengeOf, mlookup, hii]
            exact disbursedOk_congr hcc rfl (hids id)
  | finalizeRemediation sender now id0 =>
      cases h' : step s (.finalizeRemediation sender now id0) with
      | error e =>
          rw [applyOp_error h']
          exact ⟨htr, hbps, by simpa using hids⟩
      | ok p =>
          obtain ⟨s', ts⟩ := p
          obtain ⟨hu, hstR, -, hps⟩ :=
            finalizeRemediation_ok_shape (by simpa [step] using h')
          have hd0 : disb log id0 = [] := (hids id0).2.1 (Or.inr (Or.inr hstR))
          simp only [applyOp, h', Op.targetId]
          rw [show s' = (finalizeFailed s id0).1 from congrArg Prod.fst hps,
            show ts = (finalizeFailed s id0).2 from congrArg Prod.snd hps]
          exact ledgerInv_finalizeFailed_target htr hbps hids hu hd0
  | setPlatformFee sender bps =>
      cases h' : step s (.setPlatformFee sender bps) with
      | error e =>
          rw [applyOp_error h']
          exact ⟨htr, hbps, by simpa using hids⟩
      | ok p =>
          obtain ⟨s', ts⟩ := p
          obtain ⟨-, hcap, rfl, rfl⟩ :=
            setPlatformFee_ok_shape (by simpa [step] using h')
          simp only [applyOp, h', Op.targetId]
          rw [List.append_nil]
          exact ⟨htr, hcap, hids⟩
  | setFeeRecipient sender r =>
      cases h' : step s (.setFeeRecipient sender r) with
      | error e =>
          rw [applyOp_error h']
          exact ⟨htr, hbps, by simpa using hids⟩
      | ok p =>
          obtain ⟨s', ts⟩ := p
          obtain ⟨-, rfl, rfl⟩ :=
            setFeeRecipient_ok_shape (by simpa [step] using h')
          simp only [applyOp, h', Op.targetId]
          rw [List.append_nil]
          exact ⟨htr, hbps, hids⟩
  | setTreasury sender t =>
      cases h' : step s (.setTreasury sender t) with
      | error e =>
          rw [applyOp_error h']
          exact ⟨htr, hbps, by simpa using hids⟩
      | ok p =>
          obtain ⟨s', ts⟩ := p
          obtain ⟨-, rfl, rfl⟩ :=
            setTreasury_ok_shape (by simpa [step] using h')
          have ht : t ≠ 0 := by simpa [TreasuryKept] using hop
          simp only [applyOp, h', Op.targetId]
          rw [List.append_nil]
          exact ⟨ht, hbps, hids⟩

theorem ledgerInv_runAux (ops : List Op) :
    ∀ (s : EscrowState) (log : List (Bytes32 × Transfer)),
      (∀ op ∈ ops, TreasuryKept op = true) → LedgerInv s log →
      LedgerInv (runAux s log ops).1 (runAux s log ops).2 := by
  induction ops with
  | nil => intro s log _ h; exact h
  | cons op ops ih =>
      intro s log hops h
      simp only [runAux]
      exact ih _ _ (fun o ho => hops o (List.mem_cons_of_mem op ho))
        (ledgerInv_applyOp s log op (hops op (List.mem_cons_self op ops)) h)

/-- C1 (amended): on every run from a fresh contract whose treasury is
nonzero and never unset, each challenge's deposited `amount` is disbursed
exactly once, to exactly one destination, and only upon reaching a
terminal state: nothing is paid out while the challenge is absent or
non-terminal; on COMPLETED the log for the challenge is exactly the owner
payout `amount - fee` (preceded by the fee transfer when a nonzero fee
and recipient were configured); on FAILED_FINAL it is exactly one
transfer of the full `amount` to the (nonzero) treasury — never zero
times, never twice, never split between owner and treasury.  (The claim
as literally stated fails when the treasury is the zero address: see the
counterexample, where a forfeited amount is disbursed zero times.) -/
theorem C1_amount_disbursed_exactly_once (owner0 treasury0 : Address)
    (ops : List Op) (htr : treasury0 ≠ 0)
    (hops : ∀ op ∈ ops, TreasuryKept op = true) (id : Bytes32) :
    DisbursedOk
      (challengeOf (runAux (initState owner0 treasury0) [] ops).1 id)
      (disb (runAux (initState owner0 treasury0) [] ops).2 id) := by
  have hinit : LedgerInv (initState owner0 treasury0) [] := by
    refine ⟨htr, by simp [initState], ?_⟩
    intro id'
    refine ⟨fun _ => ⟨rfl, rfl⟩, fun _ => rfl, ?_, ?_⟩
    · intro hC
      rw [show challengeOf (initState owner0 treasury0) id' = emptyChallenge
        from rfl] at hC
      exact absurd hC (by decide)
    · intro hF
      rw [show challengeOf (initState owner0 treasury0) id' = emptyChallenge
        from rfl] at hF
      exact absurd hF (by decide)
  exact (ledgerInv_runAux ops _ [] hops hinit).2.2 id

/-- Fixture: a run that forfeits with the treasury left at the zero
address. -/
def exZeroTreasuryOps : List Op :=
  [.createChallenge 2 0 5 [3] 1000000 10 "" true,
   .reportFailure 2 10 5, .castVote 3 10 5 false]

/-- C1 counterexample: deployed with `treasury = address(0)`, a challenge
reaches FAILED_FINAL while the contract emits no transfer at all — the
deposited amount is disbursed zero times over the record's whole
lifetime (and, terminal states being absorbing, never afterwards),
refuting "exactly once, never zero times" as literally stated. -/
theorem C1_zero_treasury_cex :
    (challengeOf (runAux (initState 1 0) [] exZeroTreasuryOps).1 5).state =
      .FAILED_FINAL ∧
    (challengeOf (runAux (initState 1 0) [] exZeroTreasuryOps).1 5).amount =
      1000000 ∧
    (runAux (initState 1 0) [] exZeroTreasuryOps).2 = [] := by decide

/-- Fixture: the full forfeiture run behind `exStateFF`. -/
def exFFOps : List Op :=
  [exCreate3, .reportFailure 2 100 5,
   .castVote 4 101 5 false, .castVote 6 102 5 false]

/-- Witness for C1's amended statement on the concrete forfeiture run. -/
theorem C1_amount_disbursed_exactly_once_witness :
    DisbursedOk
      (challengeOf (runAux (initState 1 9) [] exFFOps).1 5)
      (disb (runAux (initState 1 9) [] exFFOps).2 5) :=
  C1_amount_disbursed_exactly_once 1 9 exFFOps (by decide) (by decide) 5

end ChallengeEscrow
